import Mathlib

set_option maxHeartbeats 1600000
set_option maxRecDepth 8000

/-!
Shallow embedding of the CheckIn backend's message-thread subsystem
(`src/controllers/messages.controller.js`, `src/models/MessageThread.model.js`,
`src/models/Message.model.js`).  Mongo object ids are modelled as naturals,
dates as natural-number instants, Mongo documents as Lean structures, and each
HTTP controller as a state-passing function returning the response
(`Except Err α`) together with the store contents after the call.  Writes
performed before an error are kept in the returned store, mirroring the
absence of transactions in the controller code.
-/

namespace CheckIn

/-- Object ids (Mongo `ObjectId`) modelled as naturals. -/
abbrev Oid := Nat

/-- `MessageThreadSchema.status` enum: `["open", "closed"]`. -/
inductive Status where
  | open'
  | closed
deriving DecidableEq, Repr

/-- `MessageThreadSchema.identityMode` enum: `["student", "anonymous"]`. -/
inductive IdentityMode where
  | student
  | anonymous
deriving DecidableEq, Repr

/-- The `unreadCounts` field: a Mongo `Map` from user-id keys to numbers,
modelled as an association list. -/
abbrev UnreadMap := List (Oid × Nat)

/-- Lookup with Mongo/JS semantics: a missing key reads as `0`
(`Number(obj?.[k] || 0)` in `getUnreadFor`). -/
def ucGet (m : UnreadMap) (k : Oid) : Nat :=
  match m with
  | [] => 0
  | p :: rest => if p.1 = k then p.2 else ucGet rest k

/-- `$set` of a single `unreadCounts.<k>` path: replace the first binding of
`k`, or append one if absent. -/
def ucSet (m : UnreadMap) (k : Oid) (v : Nat) : UnreadMap :=
  match m with
  | [] => [(k, v)]
  | p :: rest => if p.1 = k then (k, v) :: rest else p :: ucSet rest k v

/-- `$inc` of a single `unreadCounts.<k>` path (missing key counts as `0`). -/
def ucInc (m : UnreadMap) (k : Oid) : UnreadMap :=
  ucSet m k (ucGet m k + 1)

/-- `MessageThread` document (`MessageThread.model.js`). -/
structure Thread where
  tid : Oid
  studentId : Oid
  counselorId : Option Oid := none
  claimedAt : Option Nat := none
  participants : List Oid := []
  anonymous : Bool := false
  identityMode : IdentityMode := .student
  identityLocked : Bool := false
  identityLockedAt : Option Nat := none
  status : Status := .open'
  closedAt : Option Nat := none
  closedBy : Option Oid := none
  lastMessage : List Char := []
  lastMessageAt : Option Nat := none
  unreadCounts : UnreadMap := []
  unassignedUnread : Nat := 0
deriving DecidableEq, Repr

/-- `Message` document (`Message.model.js`); `text` is a character list so the
`cleanText` pipeline can be stated directly. -/
structure Message where
  mid : Oid
  threadId : Oid
  senderId : Oid
  senderRole : String
  clientId : Option String := none
  text : List Char
  createdAt : Nat
deriving DecidableEq, Repr

/-- The authenticated `req.user` as the controllers read it: an id and a
free-form role string. -/
structure Viewer where
  id : Oid
  role : String
deriving DecidableEq, Repr

/-- The persistent store: thread collection, message collection, and fresh-id
counters standing in for ObjectId generation. -/
structure St where
  threads : List Thread := []
  messages : List Message := []
  nextMid : Nat := 0
  nextTid : Nat := 0
deriving DecidableEq, Repr

/-- Response taxonomy of the controllers, by HTTP status:
`validation` 400, `forbidden` 403, `notFound` 404, `conflict` 409, and the
400 "This conversation is closed." rejection. -/
inductive Err where
  | validationErr
  | forbidden
  | notFound
  | conflict
  | closedConversation
deriving DecidableEq, Repr

/-! ### Helpers (`messages.controller.js` lines 20-102) -/

/-- JS control characters stripped by `cleanText`'s regex
`/[\u0000-\u001F\u007F]/g`. -/
def isCtrlChar (c : Char) : Bool :=
  c.toNat ≤ 0x1F || c.toNat == 0x7F

/-- Whitespace recognised by JavaScript `String.prototype.trim`. -/
def isJsSpace (c : Char) : Bool :=
  let n := c.toNat
  (0x9 ≤ n && n ≤ 0xD) || n == 0x20 || n == 0xA0 || n == 0x1680 ||
  (0x2000 ≤ n && n ≤ 0x200A) || n == 0x2028 || n == 0x2029 ||
  n == 0x202F || n == 0x205F || n == 0x3000 || n == 0xFEFF

/-- JavaScript `.trim()`: drop leading and trailing whitespace. -/
def jsTrim (s : List Char) : List Char :=
  ((s.dropWhile isJsSpace).reverse.dropWhile isJsSpace).reverse

/-- `cleanText`: strip control characters, trim, then `.slice(0, 2000)`. -/
def cleanText (s : List Char) : List Char :=
  (jsTrim (s.filter (fun c => !isCtrlChar c))).take 2000

/-- JavaScript `String.prototype.toLowerCase` on role/mode strings,
character by character. -/
def jsLower (s : String) : String :=
  ⟨s.data.map Char.toLower⟩

/-- `roleLower`. -/
def roleLower (u : Viewer) : String :=
  jsLower u.role

/-- `isCounselor`. -/
def isCounselor (u : Viewer) : Bool :=
  roleLower u == "counselor"

/-- `senderRoleLabel`. -/
def senderRoleLabel (u : Viewer) : String :=
  if roleLower u = "counselor" then "Counselor"
  else if roleLower u = "admin" then "Admin"
  else "Student"

/-- `canAccessThread`: counselors read system-wide, everyone else only their
own thread. -/
def canAccessThread (t : Thread) (viewer : Viewer) : Bool :=
  isCounselor viewer || t.studentId == viewer.id

/-- The `studentId` field of `maskThreadForViewer`'s result: a counselor sees
the student id only when the thread is not anonymous and is assigned to that
counselor; other viewers see it unmasked. -/
def maskedStudentId (t : Thread) (viewer : Viewer) : Option Oid :=
  if isCounselor viewer then
    if t.anonymous then none
    else if t.counselorId = some viewer.id then some t.studentId
    else none
  else some t.studentId

/-- `MessageThread.findById` / `findOne({_id})`. -/
def findThread (σ : St) (tid : Oid) : Option Thread :=
  σ.threads.find? (fun t => t.tid == tid)

/-- Write back one thread document by id (`findByIdAndUpdate` /
`document.save()` commit). -/
def updThread (σ : St) (u : Thread) : St :=
  { σ with threads := σ.threads.map (fun x => if x.tid = u.tid then u else x) }

/-- Mongo `$addToSet`. -/
def addToSet (l : List Oid) (x : Oid) : List Oid :=
  if x ∈ l then l else l ++ [x]

/-- The `MessageThreadSchema.pre("save")` hook: push `studentId` and a present
`counselorId` onto `participants` when the *original* participant set lacks
them. -/
def preSave (t : Thread) : Thread :=
  let base := t.participants
  let ps1 := if t.studentId ∈ base then base else base ++ [t.studentId]
  let ps2 :=
    match t.counselorId with
    | some c => if c ∈ base then ps1 else ps1 ++ [c]
    | none => ps1
  { t with participants := ps2 }

/-! ### sendMessage (`messages.controller.js` lines 277-471) -/

/-- Body of `POST /threads/:threadId/messages`. -/
structure SendReq where
  threadId : Oid
  text : List Char
  clientId : Option String := none
  senderMode : Option String := none
deriving DecidableEq, Repr

/-- Successful send response: the stored message plus the internal
`claimedNow` flag. -/
structure SendOk where
  message : Message
  claimedNow : Bool
deriving DecidableEq, Repr

/-- Identity-lock section of `sendMessage` (lines 321-339).  Returns the
thread document the controller keeps working with, and whether it was saved
(`thread.save()`, which fires the pre-save hook). -/
def lockPhase (viewer : Viewer) (senderMode : Option String) (snap : Thread)
    (now : Nat) : Except Err (Thread × Bool) :=
  if isCounselor viewer then .ok (snap, false)
  else
    let requestedMode := jsLower (senderMode.getD "")
    let wantsAnonymous := requestedMode == "anonymous"
    if snap.identityLocked then
      if requestedMode ≠ "" ∧ snap.anonymous ≠ wantsAnonymous then
        .error .conflict
      else .ok (snap, false)
    else
      .ok (preSave { snap with
        anonymous := wantsAnonymous,
        identityMode := if wantsAnonymous then .anonymous else .student,
        identityLocked := true,
        identityLockedAt := some now }, true)

/-- Claim-on-reply section of `sendMessage` (lines 341-371).  `doc` is the
in-memory thread document; the conditional claim (`findOneAndUpdate` keyed on
`counselorId: null, status: "open"`) and the `$addToSet` run against the
current store.  Returns the store, the document carried forward, and
`claimedNow`. -/
def claimPhase (viewer : Viewer) (doc : Thread) (tid : Oid) (σ : St)
    (now : Nat) : Except Err (St × Thread × Bool) :=
  if isCounselor viewer then
    match doc.counselorId with
    | some c =>
      if c = viewer.id then
        match findThread σ tid with
        | some cur =>
          .ok (updThread σ { cur with
            participants := addToSet cur.participants viewer.id }, doc, false)
        | none => .ok (σ, doc, false)
      else .error .forbidden
    | none =>
      match findThread σ tid with
      | some cur =>
        if cur.counselorId = none ∧ cur.status = Status.open' then
          let claimed := { cur with
            counselorId := some viewer.id,
            claimedAt := some now,
            unassignedUnread := 0,
            participants := addToSet cur.participants viewer.id }
          .ok (updThread σ claimed, claimed, true)
        else .error .conflict
      | none => .error .conflict
  else .ok (σ, doc, false)

/-- `Message.create` with the unique sparse index
`{threadId, senderId, clientId}`: with a client id, a duplicate key error is
answered by returning the already-stored message (lines 376-391). -/
def findDup (σ : St) (tid sid : Oid) (clientId : Option String) :
    Option Message :=
  match clientId with
  | some cid =>
    σ.messages.find? (fun m =>
      m.threadId == tid && m.senderId == sid && m.clientId == some cid)
  | none => none

/-- The document handed to `Message.create` (lines 378-384). -/
def newMessage (viewer : Viewer) (tid : Oid) (clientId : Option String)
    (text : List Char) (σ : St) (now : Nat) : Message :=
  { mid := σ.nextMid, threadId := tid, senderId := viewer.id,
    senderRole := senderRoleLabel viewer, clientId := clientId,
    text := text, createdAt := now }

/-- Thread summary + unread-count update (`$set`/`$inc` document of lines
396-419) applied to the current thread `cur`; `thread` is the controller's
in-memory document whose `studentId`/`counselorId` pick the recipient. -/
def counterUpd (viewer : Viewer) (thread : Thread) (text : List Char)
    (createdAt : Nat) (cur : Thread) : Thread :=
  let c1 := { cur with
    lastMessage := text,
    lastMessageAt := some createdAt,
    unreadCounts := ucSet cur.unreadCounts viewer.id 0 }
  if isCounselor viewer then
    { c1 with unreadCounts := ucInc c1.unreadCounts thread.studentId }
  else
    match thread.counselorId with
    | some c => { c1 with unreadCounts := ucInc c1.unreadCounts c }
    | none => { c1 with unassignedUnread := c1.unassignedUnread + 1 }

/-- Message persistence plus thread summary/unread update (lines 373-419).
Never fails.  `thread` is the document variable of the controller at this
point (snapshot, or the freshly claimed document). -/
def finishSend (viewer : Viewer) (tid : Oid) (clientId : Option String)
    (text : List Char) (thread : Thread) (σ : St) (now : Nat)
    (claimedNow : Bool) : SendOk × St :=
  let created :=
    match findDup σ tid viewer.id clientId with
    | some m => (m, σ)
    | none =>
      (newMessage viewer tid clientId text σ now,
       { σ with messages := σ.messages ++ [newMessage viewer tid clientId text σ now],
                nextMid := σ.nextMid + 1 })
  let σ2 :=
    match findThread created.2 tid with
    | none => created.2
    | some cur =>
      updThread created.2 (counterUpd viewer thread text created.1.createdAt cur)
  ({ message := created.1, claimedNow := claimedNow }, σ2)

/-- `sendMessage` given the thread snapshot read by `findById` (`snap`); the
store `σ` is the state the subsequent conditional writes run against.  Under
sequential execution `snap` is exactly `findThread σ req.threadId`; keeping
them separate lets the claim race be expressed with a stale snapshot. -/
def sendMessageWith (viewer : Viewer) (req : SendReq) (snap : Thread) (σ : St)
    (now : Nat) : Except Err SendOk × St :=
  let text := cleanText req.text
  if text = [] then (.error .validationErr, σ)
  else if snap.status = Status.closed then (.error .closedConversation, σ)
  else if ¬ isCounselor viewer ∧ snap.studentId ≠ viewer.id then
    (.error .forbidden, σ)
  else
    match lockPhase viewer req.senderMode snap now with
    | .error e => (.error e, σ)
    | .ok (doc, didSave) =>
      let σ1 := if didSave then updThread σ doc else σ
      match claimPhase viewer doc req.threadId σ1 now with
      | .error e => (.error e, σ1)
      | .ok (σ2, thread, claimedNow) =>
        let r := finishSend viewer req.threadId req.clientId text thread σ2
          now claimedNow
        (.ok r.1, r.2)

/-- `POST /threads/:threadId/messages` (sequential execution). -/
def sendMessage (viewer : Viewer) (req : SendReq) (σ : St) (now : Nat) :
    Except Err SendOk × St :=
  if cleanText req.text = [] then (.error .validationErr, σ)
  else
    match findThread σ req.threadId with
    | none => (.error .notFound, σ)
    | some snap => sendMessageWith viewer req snap σ now

/-! ### ensureThread, getThread, markRead, closeThread -/

/-- Body of `POST /threads/ensure`: `anonymous` is `none` when
`req.body.anonymous` is not a boolean. -/
structure EnsureReq where
  anonymous : Option Bool := none
deriving DecidableEq, Repr

/-- `POST /threads/ensure` (lines 174-242). -/
def ensureThread (viewer : Viewer) (req : EnsureReq) (σ : St) :
    Except Err Thread × St :=
  if isCounselor viewer then (.error .forbidden, σ)
  else
    let anonymous := req.anonymous.getD false
    match σ.threads.find? (fun t =>
        t.studentId == viewer.id && t.status == Status.open') with
    | some existing =>
      if ¬ existing.identityLocked ∧ req.anonymous.isSome ∧
          existing.anonymous ≠ anonymous then
        let t' := { existing with
          anonymous := anonymous,
          identityMode := if anonymous then .anonymous else .student }
        (.ok t', updThread σ t')
      else (.ok existing, σ)
    | none =>
      let t : Thread := preSave {
        tid := σ.nextTid, studentId := viewer.id, counselorId := none,
        claimedAt := none, participants := [viewer.id],
        anonymous := anonymous,
        identityMode := if anonymous then .anonymous else .student,
        identityLocked := false, identityLockedAt := none,
        status := Status.open', closedAt := none, closedBy := none,
        lastMessage := [], lastMessageAt := none,
        unreadCounts := [(viewer.id, 0)], unassignedUnread := 0 }
      (.ok t, { σ with threads := σ.threads ++ [t], nextTid := σ.nextTid + 1 })

/-- `GET /threads/:threadId` (lines 245-274): the thread plus the
`studentId` the viewer is shown.  Read-only. -/
def getThread (viewer : Viewer) (tid : Oid) (σ : St) :
    Except Err (Thread × Option Oid) :=
  match findThread σ tid with
  | none => .error .notFound
  | some t =>
    if canAccessThread t viewer then .ok (t, maskedStudentId t viewer)
    else .error .forbidden

/-- `POST /threads/:threadId/read` (lines 474-517). -/
def markRead (viewer : Viewer) (tid : Oid) (σ : St) : Except Err Unit × St :=
  match findThread σ tid with
  | none => (.error .notFound, σ)
  | some t =>
    if t.status = Status.closed then (.ok (), σ)
    else if ¬ isCounselor viewer ∧ t.studentId ≠ viewer.id then
      (.error .forbidden, σ)
    else
      (.ok (), updThread σ { t with
        unreadCounts := ucSet t.unreadCounts viewer.id 0 })

/-- `POST /threads/:threadId/close` (lines 523-588). -/
def closeThread (viewer : Viewer) (tid : Oid) (σ : St) (now : Nat) :
    Except Err Unit × St :=
  match findThread σ tid with
  | none => (.error .notFound, σ)
  | some t =>
    if ¬ isCounselor viewer ∧ t.studentId ≠ viewer.id then
      (.error .forbidden, σ)
    else if isCounselor viewer ∧ t.counselorId = none then
      (.error .forbidden, σ)
    else if isCounselor viewer ∧ t.counselorId ≠ some viewer.id then
      (.error .forbidden, σ)
    else if t.status = Status.closed then (.ok (), σ)
    else
      let t1 := { t with
        status := Status.closed,
        closedAt := some now,
        closedBy := some viewer.id,
        unassignedUnread := 0,
        unreadCounts := ucSet t.unreadCounts t.studentId 0 }
      let t2 :=
        match t.counselorId with
        | some c => { t1 with unreadCounts := ucSet t1.unreadCounts c 0 }
        | none => t1
      (.ok (), updThread σ t2)

/-- One mutating API call, for lifetime statements quantifying over every
operation. -/
inductive Op where
  | ensure (viewer : Viewer) (req : EnsureReq)
  | send (viewer : Viewer) (req : SendReq) (now : Nat)
  | read (viewer : Viewer) (tid : Oid)
  | close (viewer : Viewer) (tid : Oid) (now : Nat)

/-- The store after one API call (whether it succeeded or failed). -/
def applyOp (σ : St) : Op → St
  | .ensure v r => (ensureThread v r σ).2
  | .send v r n => (sendMessage v r σ n).2
  | .read v t => (markRead v t σ).2
  | .close v t n => (closeThread v t σ n).2

/-- Thread ids are pairwise distinct in the store (ObjectId uniqueness). -/
def WfSt (σ : St) : Prop :=
  σ.threads.Pairwise (fun a b => a.tid ≠ b.tid)

/-! ### Lemmas about the unread-count map -/

theorem ucGet_ucSet_self (m : UnreadMap) (k : Oid) (v : Nat) :
    ucGet (ucSet m k v) k = v := by
  induction m with
  | nil => simp [ucSet, ucGet]
  | cons p rest ih =>
    by_cases h : p.1 = k
    · simp [ucSet, h, ucGet]
    · simp [ucSet, h, ucGet, ih]

theorem ucGet_ucSet_ne (m : UnreadMap) (k k' : Oid) (v : Nat) (h : k' ≠ k) :
    ucGet (ucSet m k v) k' = ucGet m k' := by
  induction m with
  | nil => simp [ucSet, ucGet, Ne.symm h]
  | cons p rest ih =>
    by_cases hp : p.1 = k
    · simp [ucSet, hp, ucGet, Ne.symm h, h]
    · by_cases hp' : p.1 = k'
      · simp [ucSet, hp, ucGet, hp', h]
      · simp [ucSet, hp, ucGet, hp', ih]

theorem ucGet_ucInc_self (m : UnreadMap) (k : Oid) :
    ucGet (ucInc m k) k = ucGet m k + 1 := by
  simp [ucInc, ucGet_ucSet_self]

theorem ucGet_ucInc_ne (m : UnreadMap) (k k' : Oid) (h : k' ≠ k) :
    ucGet (ucInc m k) k' = ucGet m k' := by
  simp [ucInc, ucGet_ucSet_ne _ _ _ _ h]

/-! ### Lemmas about the thread collection -/

theorem find?_tid_upd (l : List Thread) (u : Thread) (x : Oid) :
    (l.map (fun t => if t.tid = u.tid then u else t)).find?
        (fun t => t.tid == x) =
      if u.tid = x then (l.find? (fun t => t.tid == x)).map (fun _ => u)
      else l.find? (fun t => t.tid == x) := by
  induction l with
  | nil => split <;> simp
  | cons a l ih =>
    simp only [List.map_cons]
    by_cases hau : a.tid = u.tid
    · by_cases hux : u.tid = x
      · rw [if_pos hau, List.find?_cons_of_pos _ (by simp [hux]), if_pos hux,
          List.find?_cons_of_pos _ (by simp [hau.trans hux]),
          Option.map_some']
      · have hax : ¬ a.tid = x := fun h => hux (hau ▸ h)
        rw [if_pos hau, List.find?_cons_of_neg _ (by simp [hux]), ih,
          if_neg hux, if_neg hux, List.find?_cons_of_neg _ (by simp [hax])]
    · by_cases hax : a.tid = x
      · have hux : ¬ u.tid = x := fun h => hau (hax.trans h.symm)
        rw [if_neg hau, if_neg hux, List.find?_cons_of_pos _ (by simp [hax]),
          List.find?_cons_of_pos _ (by simp [hax])]
      · rw [if_neg hau, List.find?_cons_of_neg _ (by simp [hax]), ih]
        by_cases hux : u.tid = x
        · rw [if_pos hux, if_pos hux,
            List.find?_cons_of_neg _ (by simp [hax])]
        · rw [if_neg hux, if_neg hux,
            List.find?_cons_of_neg _ (by simp [hax])]

theorem findThread_updThread (σ : St) (u : Thread) (x : Oid) :
    findThread (updThread σ u) x =
      if u.tid = x then (findThread σ x).map (fun _ => u)
      else findThread σ x := by
  unfold findThread updThread
  exact find?_tid_upd σ.threads u x

theorem findThread_updThread_self {σ : St} {x : Oid} {t : Thread}
    (h : findThread σ x = some t) (u : Thread) (hu : u.tid = x) :
    findThread (updThread σ u) x = some u := by
  rw [findThread_updThread, if_pos hu, h, Option.map_some']

theorem findThread_updThread_other {x : Oid} (σ : St) (u : Thread)
    (hu : u.tid ≠ x) :
    findThread (updThread σ u) x = findThread σ x := by
  rw [findThread_updThread, if_neg hu]

theorem findThread_tid {σ : St} {x : Oid} {t : Thread}
    (h : findThread σ x = some t) : t.tid = x := by
  unfold findThread at h
  have := List.find?_some h
  simpa using this

theorem findThread_mem {σ : St} {x : Oid} {t : Thread}
    (h : findThread σ x = some t) : t ∈ σ.threads :=
  List.mem_of_find?_eq_some h

theorem find?_append_some {α : Type} {l₁ : List α} (l₂ : List α)
    {p : α → Bool} {a : α} (h : l₁.find? p = some a) :
    (l₁ ++ l₂).find? p = some a := by
  induction l₁ with
  | nil => simp [List.find?] at h
  | cons b l ih =>
    by_cases hb : p b = true
    · rw [List.find?_cons_of_pos _ hb] at h
      rw [List.cons_append, List.find?_cons_of_pos _ hb]
      exact h
    · rw [List.find?_cons_of_neg _ hb] at h
      rw [List.cons_append, List.find?_cons_of_neg _ hb]
      exact ih h

theorem WfSt.tid_inj {σ : St} (h : WfSt σ) {a b : Thread}
    (ha : a ∈ σ.threads) (hb : b ∈ σ.threads) (hab : a.tid = b.tid) :
    a = b := by
  by_contra hne
  have hsym : Symmetric (fun a b : Thread => a.tid ≠ b.tid) :=
    fun x y hxy => fun h' => hxy h'.symm
  exact (h.forall hsym ha hb hne) hab

/-! ### Lemmas about cleanText -/

theorem filter_replicate_of_pos {c : Char} {p : Char → Bool} (h : p c = true)
    (n : Nat) : (List.replicate n c).filter p = List.replicate n c := by
  induction n with
  | zero => simp
  | succ n ih => simp [List.replicate_succ, h, ih]

theorem dropWhile_replicate_of_neg {c : Char} {p : Char → Bool}
    (h : p c = false) (n : Nat) :
    (List.replicate n c).dropWhile p = List.replicate n c := by
  cases n with
  | zero => simp
  | succ n => simp [List.replicate_succ, List.dropWhile_cons, h]

theorem reverse_replicate' (n : Nat) (c : Char) :
    (List.replicate n c).reverse = List.replicate n c := by
  induction n with
  | zero => simp
  | succ n ih =>
    rw [List.replicate_succ, List.reverse_cons, ih,
      ← List.replicate_succ, List.replicate_succ']

theorem take_replicate' (m n : Nat) (c : Char) :
    (List.replicate n c).take m = List.replicate (min m n) c := by
  induction n generalizing m with
  | zero => simp
  | succ n ih =>
    cases m with
    | zero => simp
    | succ m =>
      simp [List.replicate_succ, ih, Nat.succ_min_succ, ← List.replicate_succ]

theorem cleanText_replicate_a (n : Nat) :
    cleanText (List.replicate n 'a') = List.replicate (min 2000 n) 'a' := by
  unfold cleanText jsTrim
  rw [filter_replicate_of_pos (by decide),
    dropWhile_replicate_of_neg (by decide), reverse_replicate',
    dropWhile_replicate_of_neg (by decide), reverse_replicate',
    take_replicate']

theorem cleanText_length_le (s : List Char) : (cleanText s).length ≤ 2000 := by
  simp only [cleanText, List.length_take]
  exact min_le_left _ _


/-! ### Phase lemmas for sendMessage -/

theorem lockPhase_counselor {viewer : Viewer} (h : isCounselor viewer = true)
    (m : Option String) (snap : Thread) (now : Nat) :
    lockPhase viewer m snap now = .ok (snap, false) := by
  simp [lockPhase, h]

theorem claimPhase_student {viewer : Viewer} (h : isCounselor viewer = false)
    (doc : Thread) (tid : Oid) (σ : St) (now : Nat) :
    claimPhase viewer doc tid σ now = .ok (σ, doc, false) := by
  simp [claimPhase, h]

theorem lockPhase_cases {viewer : Viewer} {m : Option String}
    {snap doc : Thread} {now : Nat} {b : Bool}
    (h : lockPhase viewer m snap now = .ok (doc, b)) :
    (doc = snap ∧ b = false) ∨
    (isCounselor viewer = false ∧ snap.identityLocked = false ∧ b = true ∧
     doc = preSave { snap with
       anonymous := (jsLower (m.getD "") == "anonymous"),
       identityMode :=
         if (jsLower (m.getD "") == "anonymous") = true then .anonymous
         else .student,
       identityLocked := true, identityLockedAt := some now }) := by
  unfold lockPhase at h
  split at h
  case isTrue hc =>
    simp only [Except.ok.injEq, Prod.mk.injEq] at h
    exact .inl ⟨h.1.symm, h.2.symm⟩
  case isFalse hc =>
    simp only [] at h
    split at h
    case isTrue hl =>
      split at h
      case isTrue => exact absurd h (by simp)
      case isFalse =>
        simp only [Except.ok.injEq, Prod.mk.injEq] at h
        exact .inl ⟨h.1.symm, h.2.symm⟩
    case isFalse hl =>
      simp only [Except.ok.injEq, Prod.mk.injEq] at h
      refine .inr ⟨by simpa using hc, by simpa using hl, h.2.symm, ?_⟩
      exact h.1.symm

theorem claimPhase_cases {viewer : Viewer} {doc : Thread} {tid : Oid} {σ : St}
    {now : Nat} {σ' : St} {th : Thread} {cl : Bool}
    (h : claimPhase viewer doc tid σ now = .ok (σ', th, cl)) :
    (isCounselor viewer = false ∧ σ' = σ ∧ th = doc ∧ cl = false) ∨
    (isCounselor viewer = true ∧ doc.counselorId = some viewer.id ∧
      th = doc ∧ cl = false ∧
      ((∃ cur, findThread σ tid = some cur ∧
         σ' = updThread σ { cur with
           participants := addToSet cur.participants viewer.id }) ∨
       (findThread σ tid = none ∧ σ' = σ))) ∨
    (isCounselor viewer = true ∧ doc.counselorId = none ∧ cl = true ∧
      ∃ cur, findThread σ tid = some cur ∧ cur.counselorId = none ∧
        cur.status = Status.open' ∧
        th = { cur with
          counselorId := some viewer.id,
          claimedAt := some now,
          unassignedUnread := 0,
          participants := addToSet cur.participants viewer.id } ∧
        σ' = updThread σ th) := by
  unfold claimPhase at h
  split at h
  case isTrue hc =>
    split at h
    next c hdoc =>
      split at h
      case isTrue hcv =>
        split at h
        next cur hcur =>
          simp only [Except.ok.injEq, Prod.mk.injEq] at h
          exact .inr (.inl ⟨hc, by rw [hdoc, hcv], h.2.1.symm, h.2.2.symm,
            .inl ⟨cur, hcur, h.1.symm⟩⟩)
        next hcur =>
          simp only [Except.ok.injEq, Prod.mk.injEq] at h
          exact .inr (.inl ⟨hc, by rw [hdoc, hcv], h.2.1.symm, h.2.2.symm,
            .inr ⟨hcur, h.1.symm⟩⟩)
      case isFalse => exact absurd h (by simp)
    next hdoc =>
      split at h
      next cur hcur =>
        split at h
        case isTrue hcond =>
          simp only [Except.ok.injEq, Prod.mk.injEq] at h
          refine .inr (.inr ⟨hc, hdoc, h.2.2.symm, cur, hcur, hcond.1,
            hcond.2, h.2.1.symm, ?_⟩)
          rw [← h.2.1]
          exact h.1.symm
        case isFalse => exact absurd h (by simp)
      next hcur => exact absurd h (by simp)
  case isFalse hc =>
    simp only [Except.ok.injEq, Prod.mk.injEq] at h
    exact .inl ⟨by simpa using hc, h.1.symm, h.2.1.symm, h.2.2.symm⟩

theorem claimPhase_error_counselor {viewer : Viewer} {doc : Thread} {tid : Oid}
    {σ : St} {now : Nat} {e : Err}
    (h : claimPhase viewer doc tid σ now = .error e) :
    isCounselor viewer = true := by
  unfold claimPhase at h
  split at h
  case isTrue hc => exact hc
  case isFalse hc => exact absurd h (by simp)

theorem updThread_messages (σ : St) (u : Thread) :
    (updThread σ u).messages = σ.messages := rfl

theorem updThread_nextMid (σ : St) (u : Thread) :
    (updThread σ u).nextMid = σ.nextMid := rfl

theorem preSave_tid (t : Thread) : (preSave t).tid = t.tid := rfl

theorem preSave_fields (t : Thread) :
    (preSave t).tid = t.tid ∧ (preSave t).studentId = t.studentId ∧
    (preSave t).counselorId = t.counselorId ∧
    (preSave t).claimedAt = t.claimedAt ∧
    (preSave t).anonymous = t.anonymous ∧
    (preSave t).identityMode = t.identityMode ∧
    (preSave t).identityLocked = t.identityLocked ∧
    (preSave t).identityLockedAt = t.identityLockedAt ∧
    (preSave t).status = t.status ∧
    (preSave t).unreadCounts = t.unreadCounts ∧
    (preSave t).unassignedUnread = t.unassignedUnread :=
  ⟨rfl, rfl, rfl, rfl, rfl, rfl, rfl, rfl, rfl, rfl, rfl⟩

theorem counterUpd_fields (viewer : Viewer) (thread : Thread)
    (text : List Char) (ca : Nat) (cur : Thread) :
    (counterUpd viewer thread text ca cur).tid = cur.tid ∧
    (counterUpd viewer thread text ca cur).studentId = cur.studentId ∧
    (counterUpd viewer thread text ca cur).counselorId = cur.counselorId ∧
    (counterUpd viewer thread text ca cur).status = cur.status ∧
    (counterUpd viewer thread text ca cur).anonymous = cur.anonymous ∧
    (counterUpd viewer thread text ca cur).identityLocked =
      cur.identityLocked ∧
    (counterUpd viewer thread text ca cur).identityMode = cur.identityMode ∧
    (counterUpd viewer thread text ca cur).claimedAt = cur.claimedAt := by
  unfold counterUpd
  split
  · exact ⟨rfl, rfl, rfl, rfl, rfl, rfl, rfl, rfl⟩
  · split <;> exact ⟨rfl, rfl, rfl, rfl, rfl, rfl, rfl, rfl⟩

theorem finishSend_of_dup {σ : St} {tid : Oid} {viewer : Viewer}
    {cid : Option String} {m : Message}
    (hdup : findDup σ tid viewer.id cid = some m)
    (text : List Char) (thread : Thread) (now : Nat) (cl : Bool) :
    finishSend viewer tid cid text thread σ now cl =
      ({ message := m, claimedNow := cl },
       match findThread σ tid with
       | none => σ
       | some cur => updThread σ (counterUpd viewer thread text m.createdAt cur)) := by
  unfold finishSend
  rw [hdup]

theorem finishSend_of_new {σ : St} {tid : Oid} {viewer : Viewer}
    {cid : Option String}
    (hdup : findDup σ tid viewer.id cid = none)
    (text : List Char) (thread : Thread) (now : Nat) (cl : Bool) :
    finishSend viewer tid cid text thread σ now cl =
      ({ message := newMessage viewer tid cid text σ now, claimedNow := cl },
       match findThread σ tid with
       | none => { σ with
           messages := σ.messages ++ [newMessage viewer tid cid text σ now],
           nextMid := σ.nextMid + 1 }
       | some cur =>
         updThread { σ with
           messages := σ.messages ++ [newMessage viewer tid cid text σ now],
           nextMid := σ.nextMid + 1 }
           (counterUpd viewer thread text now cur)) := by
  unfold finishSend
  rw [hdup]
  rfl

/-! ### Field tracking through one operation -/

/-- Relation between an old and a new version of one stored thread document,
capturing the C1/C4 invariants: `counselorId` may only move from `none` to
the claiming counselor (witnessed by `claimed`), and once `identityLocked`
is set the identity fields are frozen. -/
def Tracked (v : Viewer) (claimed : Prop) (t t' : Thread) : Prop :=
  t'.tid = t.tid ∧ t'.studentId = t.studentId ∧
  (t.identityLocked = true →
    t'.identityLocked = true ∧ t'.anonymous = t.anonymous ∧
    t'.identityMode = t.identityMode) ∧
  (∀ c, t.counselorId = some c → t'.counselorId = some c) ∧
  (t.counselorId = none →
    t'.counselorId = none ∨ (claimed ∧ t'.counselorId = some v.id))

theorem Tracked.refl (v : Viewer) (claimed : Prop) (t : Thread) :
    Tracked v claimed t t :=
  ⟨Eq.refl _, Eq.refl _, fun h => ⟨h, Eq.refl _, Eq.refl _⟩, fun _ hc => hc,
   fun h => .inl h⟩

theorem Tracked.mono {v : Viewer} {P Q : Prop} {t t' : Thread}
    (h : Tracked v P t t') (hpq : P → Q) : Tracked v Q t t' := by
  obtain ⟨h1, h2, h3, h4, h5⟩ := h
  refine ⟨h1, h2, h3, h4, fun hn => ?_⟩
  rcases h5 hn with h' | ⟨hp, h'⟩
  · exact .inl h'
  · exact .inr ⟨hpq hp, h'⟩

theorem Tracked.trans {v : Viewer} {P : Prop} {t t' t'' : Thread}
    (h : Tracked v P t t') (h' : Tracked v P t' t'') :
    Tracked v P t t'' := by
  obtain ⟨h1, h2, h3, h4, h5⟩ := h
  obtain ⟨g1, g2, g3, g4, g5⟩ := h'
  refine ⟨g1.trans h1, g2.trans h2, ?_, fun c hc => g4 c (h4 c hc),
    fun hn => ?_⟩
  · intro hl
    obtain ⟨i1, i2, i3⟩ := h3 hl
    obtain ⟨j1, j2, j3⟩ := g3 i1
    exact ⟨j1, j2.trans i2, j3.trans i3⟩
  · rcases h5 hn with h' | ⟨hp, h'⟩
    · exact g5 h'
    · exact .inr ⟨hp, g4 _ h'⟩

theorem Tracked.of_fields {v : Viewer} {P : Prop} {t t' : Thread}
    (h1 : t'.tid = t.tid) (h2 : t'.studentId = t.studentId)
    (h3 : t'.identityLocked = t.identityLocked)
    (h4 : t'.anonymous = t.anonymous) (h5 : t'.identityMode = t.identityMode)
    (h6 : t'.counselorId = t.counselorId) : Tracked v P t t' :=
  ⟨h1, h2, fun h => ⟨h3.trans h, h4, h5⟩, fun _ hc => h6.trans hc,
   fun hn => .inl (h6.trans hn)⟩

theorem Tracked.counterUpd (v viewer : Viewer) (P : Prop) (thread : Thread)
    (text : List Char) (ca : Nat) (cur : Thread) :
    Tracked v P cur (counterUpd viewer thread text ca cur) := by
  obtain ⟨f1, f2, f3, f4, f5, f6, f7, _⟩ :=
    counterUpd_fields viewer thread text ca cur
  exact .of_fields f1 f2 f6 f5 f7 f3

theorem finishSend_track {viewer : Viewer} {tid : Oid} {cid : Option String}
    {text : List Char} {thread : Thread} {σ : St} {now : Nat} {cl : Bool}
    {x : Oid} {t : Thread} {v : Viewer} {P : Prop}
    (hx : findThread σ x = some t) :
    ∃ t', findThread (finishSend viewer tid cid text thread σ now cl).2 x =
        some t' ∧ Tracked v P t t' := by
  rcases hdup : findDup σ tid viewer.id cid with _ | m
  · rw [finishSend_of_new hdup text thread now cl]
    rcases hcur : findThread σ tid with _ | cur
    · exact ⟨t, hx, .refl v P t⟩
    · simp only []
      by_cases hxe : tid = x
      · subst hxe
        have hct : cur = t := by
          rw [hx] at hcur
          exact (Option.some.inj hcur).symm
        subst hct
        refine ⟨counterUpd viewer thread text now cur, ?_, ?_⟩
        · exact findThread_updThread_self hx _
            ((counterUpd_fields viewer thread text now cur).1.trans
              (findThread_tid hx))
        · exact .counterUpd v viewer P thread text now cur
      · refine ⟨t, ?_, .refl v P t⟩
        rw [findThread_updThread_other _ _ ?_]
        · exact hx
        · exact fun h =>
            hxe (((counterUpd_fields viewer thread text now cur).1.trans
              (findThread_tid hcur)).symm.trans h)
  · rw [finishSend_of_dup hdup text thread now cl]
    rcases hcur : findThread σ tid with _ | cur
    · exact ⟨t, hx, .refl v P t⟩
    · simp only []
      by_cases hxe : tid = x
      · subst hxe
        have hct : cur = t := by
          rw [hx] at hcur
          exact (Option.some.inj hcur).symm
        subst hct
        refine ⟨counterUpd viewer thread text m.createdAt cur, ?_, ?_⟩
        · exact findThread_updThread_self hx _
            ((counterUpd_fields viewer thread text m.createdAt cur).1.trans
              (findThread_tid hx))
        · exact .counterUpd v viewer P thread text m.createdAt cur
      · refine ⟨t, ?_, .refl v P t⟩
        rw [findThread_updThread_other _ _ ?_]
        · exact hx
        · exact fun h =>
            hxe (((counterUpd_fields viewer thread text m.createdAt cur).1.trans
              (findThread_tid hcur)).symm.trans h)

theorem finishSend_claimedNow (viewer : Viewer) (tid : Oid)
    (cid : Option String) (text : List Char) (thread : Thread) (σ : St)
    (now : Nat) (cl : Bool) :
    (finishSend viewer tid cid text thread σ now cl).1.claimedNow = cl := rfl

theorem sendMessageWith_track {viewer : Viewer} {req : SendReq} {snap : Thread}
    {σ : St} {now : Nat} {x : Oid} {t : Thread}
    (hsnap : findThread σ req.threadId = some snap)
    (hx : findThread σ x = some t) :
    ∃ t', findThread (sendMessageWith viewer req snap σ now).2 x = some t' ∧
      Tracked viewer
        (isCounselor viewer = true ∧
          ∃ ok, (sendMessageWith viewer req snap σ now).1 = .ok ok ∧
            ok.claimedNow = true) t t' := by
  simp only [sendMessageWith]
  by_cases htext : cleanText req.text = []
  · rw [if_pos htext]
    exact ⟨t, hx, .refl _ _ t⟩
  rw [if_neg htext]
  by_cases hclosed : snap.status = Status.closed
  · rw [if_pos hclosed]
    exact ⟨t, hx, .refl _ _ t⟩
  rw [if_neg hclosed]
  by_cases hacc : ¬ isCounselor viewer = true ∧ snap.studentId ≠ viewer.id
  · rw [if_pos hacc]
    exact ⟨t, hx, .refl _ _ t⟩
  rw [if_neg hacc]
  cases hlp : lockPhase viewer req.senderMode snap now with
  | error e =>
    dsimp only
    exact ⟨t, hx, .refl _ _ t⟩
  | ok p =>
    obtain ⟨doc, didSave⟩ := p
    dsimp only
    rcases lockPhase_cases hlp with ⟨hdoc, hsave⟩ |
      ⟨hstu, hunlocked, hsave, hdoc⟩
    · -- no identity write: the carried document is the snapshot
      rw [hdoc, hsave]
      simp only [Bool.false_eq_true, if_false]
      cases hcp : claimPhase viewer snap req.threadId σ now with
      | error e =>
        dsimp only
        exact ⟨t, hx, .refl _ _ t⟩
      | ok q =>
        obtain ⟨σ2, th, cl⟩ := q
        dsimp only
        rcases claimPhase_cases hcp with ⟨hc, hσ2, hth, hcl⟩ |
          ⟨hc, hdocc, hth, hcl, hrest⟩ |
          ⟨hc, hdocc, hcl, cur, hcur, hcurnone, hcuropen, hth, hσ2⟩
        · subst hσ2
          exact finishSend_track hx
        · rcases hrest with ⟨cur, hcur, hσ2⟩ | ⟨hnone, hσ2⟩
          · have hcs : cur = snap := by
              rw [hsnap] at hcur
              exact (Option.some.inj hcur).symm
            subst hcs hσ2
            by_cases hxe : req.threadId = x
            · have hts : t = cur := by
                rw [hxe, hx] at hsnap
                exact Option.some.inj hsnap
              have hmid : findThread
                  (updThread σ { cur with
                    participants := addToSet cur.participants viewer.id }) x =
                  some { cur with
                    participants := addToSet cur.participants viewer.id } := by
                rw [hts] at hx
                exact findThread_updThread_self hx _ (by exact findThread_tid (t := cur) hx)
              obtain ⟨t', h1, h2⟩ := finishSend_track (t := { cur with
                participants := addToSet cur.participants viewer.id }) hmid
              refine ⟨t', h1, Tracked.trans ?_ h2⟩
              rw [hts]
              exact .of_fields rfl rfl rfl rfl rfl rfl
            · have hmid : findThread
                  (updThread σ { cur with
                    participants := addToSet cur.participants viewer.id }) x =
                  some t := by
                rw [findThread_updThread_other _ _ ?_]
                · exact hx
                · intro h
                  exact hxe ((findThread_tid hcur).symm.trans h)
              exact finishSend_track hmid
          · rw [hsnap] at hnone
            exact absurd hnone (by simp)
        · have hcs : cur = snap := by
            rw [hsnap] at hcur
            exact (Option.some.inj hcur).symm
          subst hcs hσ2 hth
          by_cases hxe : req.threadId = x
          · have hts : t = cur := by
              rw [hxe, hx] at hsnap
              exact Option.some.inj hsnap
            have hx' : findThread σ x = some cur := by
              rw [← hts]
              exact hx
            have hmid : findThread (updThread σ ({ cur with
                counselorId := some viewer.id, claimedAt := some now,
                unassignedUnread := 0,
                participants := addToSet cur.participants viewer.id })) x =
                some ({ cur with
                  counselorId := some viewer.id, claimedAt := some now,
                  unassignedUnread := 0,
                  participants := addToSet cur.participants viewer.id }) :=
              findThread_updThread_self hx' _ (by exact findThread_tid (t := cur) hx')
            obtain ⟨t', h1, h2⟩ := finishSend_track (t := { cur with
              counselorId := some viewer.id, claimedAt := some now,
              unassignedUnread := 0,
              participants := addToSet cur.participants viewer.id }) hmid
            refine ⟨t', h1, Tracked.trans ?_ h2⟩
            rw [hts]
            refine ⟨rfl, rfl, fun h => ⟨h, rfl, rfl⟩, fun c hc => ?_,
              fun _ => ?_⟩
            · rw [hcurnone] at hc
              exact absurd hc (by simp)
            · refine .inr ⟨⟨hc, _, rfl, ?_⟩, rfl⟩
              rw [finishSend_claimedNow]
              exact hcl
          · have hmid : findThread (updThread σ ({ cur with
                counselorId := some viewer.id, claimedAt := some now,
                unassignedUnread := 0,
                participants := addToSet cur.participants viewer.id })) x =
                some t := by
              rw [findThread_updThread_other _ _ ?_]
              · exact hx
              · intro h
                exact hxe ((findThread_tid hcur).symm.trans h)
            exact finishSend_track hmid
    · -- the identity lock is written before the claim phase
      rw [hsave]
      simp only [if_true]
      rw [claimPhase_student hstu]
      dsimp only
      have hdt : doc.tid = req.threadId := by
        rw [hdoc, preSave_tid]
        exact findThread_tid (t := snap) hsnap
      by_cases hxe : req.threadId = x
      · have hts : t = snap := by
          rw [hxe, hx] at hsnap
          exact Option.some.inj hsnap
        have hmid : findThread (updThread σ doc) x = some doc :=
          findThread_updThread_self hx doc (hdt.trans hxe)
        obtain ⟨t', h1, h2⟩ := finishSend_track (t := doc) hmid
        refine ⟨t', h1, Tracked.trans ?_ h2⟩
        refine ⟨?_, ?_, fun h => ?_, fun c hc => ?_, fun hn => ?_⟩
        · rw [hdoc, hts]
          exact (preSave_fields _).1
        · rw [hdoc, hts]
          exact (preSave_fields _).2.1
        · rw [hts] at h
          rw [hunlocked] at h
          exact absurd h (by simp)
        · rw [hdoc]
          rw [hts] at hc
          exact ((preSave_fields _).2.2.1).trans hc
        · rw [hts] at hn
          refine .inl ?_
          rw [hdoc]
          exact ((preSave_fields _).2.2.1).trans hn
      · have hmid : findThread (updThread σ doc) x = some t := by
          rw [findThread_updThread_other _ _ ?_]
          · exact hx
          · intro h
            exact hxe (hdt.symm.trans h)
        exact finishSend_track hmid

theorem sendMessage_track {viewer : Viewer} {req : SendReq} {σ : St}
    {now : Nat} {x : Oid} {t : Thread} (hx : findThread σ x = some t) :
    ∃ t', findThread (sendMessage viewer req σ now).2 x = some t' ∧
      Tracked viewer
        (isCounselor viewer = true ∧
          ∃ ok, (sendMessage viewer req σ now).1 = .ok ok ∧
            ok.claimedNow = true) t t' := by
  simp only [sendMessage]
  by_cases htext : cleanText req.text = []
  · rw [if_pos htext]
    exact ⟨t, hx, .refl _ _ t⟩
  rw [if_neg htext]
  cases hsnap : findThread σ req.threadId with
  | none =>
    dsimp only
    exact ⟨t, hx, .refl _ _ t⟩
  | some snap =>
    dsimp only
    exact sendMessageWith_track hsnap hx

theorem ensureThread_track {viewer : Viewer} {req : EnsureReq} {σ : St}
    {x : Oid} {t : Thread} (hwf : WfSt σ) (hx : findThread σ x = some t) :
    ∃ t', findThread (ensureThread viewer req σ).2 x = some t' ∧
      Tracked viewer False t t' := by
  simp only [ensureThread]
  by_cases hc : isCounselor viewer = true
  · rw [if_pos hc]
    exact ⟨t, hx, .refl _ _ t⟩
  rw [if_neg hc]
  cases hex : σ.threads.find? (fun u =>
      u.studentId == viewer.id && u.status == Status.open') with
  | none =>
    dsimp only
    refine ⟨t, ?_, .refl _ _ t⟩
    exact find?_append_some _ hx
  | some existing =>
    dsimp only
    split
    next h =>
      by_cases hxe : existing.tid = x
      · have heq : existing = t :=
          hwf.tid_inj (List.mem_of_find?_eq_some hex) (findThread_mem hx)
            (hxe.trans (findThread_tid hx).symm)
        refine ⟨_, findThread_updThread_self hx _ (by exact hxe), ?_⟩
        refine ⟨by rw [heq], by rw [heq], fun hl => ?_, fun c hcc => ?_,
          fun hn => .inl ?_⟩
        · rw [← heq] at hl
          exact absurd hl h.1
        · rw [← heq] at hcc
          exact (show existing.counselorId = some c from hcc) ▸ (by rw [heq])
        · show existing.counselorId = none
          rw [heq]
          exact hn
      · refine ⟨t, ?_, .refl _ _ t⟩
        rw [findThread_updThread_other _ _ (by exact hxe)]
        exact hx
    next h =>
      exact ⟨t, hx, .refl _ _ t⟩

theorem markRead_track {viewer : Viewer} {x0 : Oid} {σ : St} {x : Oid}
    {t : Thread} (hx : findThread σ x = some t) :
    ∃ t', findThread (markRead viewer x0 σ).2 x = some t' ∧
      Tracked viewer False t t' := by
  simp only [markRead]
  cases hf : findThread σ x0 with
  | none =>
    dsimp only
    exact ⟨t, hx, .refl _ _ t⟩
  | some t0 =>
    dsimp only
    split
    · exact ⟨t, hx, .refl _ _ t⟩
    split
    · exact ⟨t, hx, .refl _ _ t⟩
    by_cases hxe : x0 = x
    · subst hxe
      have ht0 : t0 = t := by
        rw [hx] at hf
        exact (Option.some.inj hf).symm
      subst ht0
      refine ⟨_, findThread_updThread_self hx _
        (by exact findThread_tid (t := t0) hf), ?_⟩
      exact .of_fields rfl rfl rfl rfl rfl rfl
    · refine ⟨t, ?_, .refl _ _ t⟩
      rw [findThread_updThread_other _ _ ?_]
      · exact hx
      · intro h
        exact hxe ((findThread_tid hf).symm.trans h)

theorem closeThread_track {viewer : Viewer} {x0 : Oid} {σ : St} {now : Nat}
    {x : Oid} {t : Thread} (hx : findThread σ x = some t) :
    ∃ t', findThread (closeThread viewer x0 σ now).2 x = some t' ∧
      Tracked viewer False t t' := by
  simp only [closeThread]
  cases hf : findThread σ x0 with
  | none =>
    dsimp only
    exact ⟨t, hx, .refl _ _ t⟩
  | some t0 =>
    dsimp only
    split
    · exact ⟨t, hx, .refl _ _ t⟩
    split
    · exact ⟨t, hx, .refl _ _ t⟩
    split
    · exact ⟨t, hx, .refl _ _ t⟩
    split
    · exact ⟨t, hx, .refl _ _ t⟩
    by_cases hxe : x0 = x
    · subst hxe
      have ht0 : t0 = t := by
        rw [hx] at hf
        exact (Option.some.inj hf).symm
      subst ht0
      cases hcid : t0.counselorId with
      | none =>
        dsimp only
        refine ⟨_, findThread_updThread_self hx _
          (by exact findThread_tid (t := t0) hf), ?_⟩
        exact .of_fields rfl rfl rfl rfl rfl hcid.symm
      | some c =>
        dsimp only
        refine ⟨_, findThread_updThread_self hx _
          (by exact findThread_tid (t := t0) hf), ?_⟩
        exact .of_fields rfl rfl rfl rfl rfl hcid.symm
    · cases hcid : t0.counselorId with
      | none =>
        dsimp only
        refine ⟨t, ?_, .refl _ _ t⟩
        rw [findThread_updThread_other _ _ ?_]
        · exact hx
        · intro h
          exact hxe ((findThread_tid hf).symm.trans h)
      | some c =>
        dsimp only
        refine ⟨t, ?_, .refl _ _ t⟩
        rw [findThread_updThread_other _ _ ?_]
        · exact hx
        · intro h
          exact hxe ((findThread_tid hf).symm.trans h)

/-- The viewer performing an operation. -/
def Op.viewerOf : Op → Viewer
  | .ensure v _ => v
  | .send v _ _ => v
  | .read v _ => v
  | .close v _ _ => v

/-- The proposition that an operation is a send which won the claim race. -/
def claimEvidence (σ : St) : Op → Prop
  | .send v r n => isCounselor v = true ∧
      ∃ ok, (sendMessage v r σ n).1 = .ok ok ∧ ok.claimedNow = true
  | _ => False

theorem applyOp_track {σ : St} {x : Oid} {t : Thread} (hwf : WfSt σ)
    (hx : findThread σ x = some t) (op : Op) :
    ∃ t', findThread (applyOp σ op) x = some t' ∧
      Tracked op.viewerOf (claimEvidence σ op) t t' := by
  cases op with
  | ensure v r => exact ensureThread_track hwf hx
  | send v r n => exact sendMessage_track hx
  | read v i => exact markRead_track hx
  | close v i n => exact closeThread_track hx

/-- Claim C1: for every stored thread, `counselorId` is set at most once: a
set `counselorId` is preserved exactly by every operation (send, mark-read,
close, ensure-thread), and a `none` `counselorId` changes only through a
counselor's send whose conditional claim write succeeded, to that counselor's
id, with the response carrying `claimedNow = true`; it is never reverted to
`none`. -/
theorem counselorId_set_at_most_once (σ : St) (op : Op) (x : Oid)
    (t t' : Thread) (hwf : WfSt σ) (ht : findThread σ x = some t)
    (ht' : findThread (applyOp σ op) x = some t') :
    (∀ c, t.counselorId = some c → t'.counselorId = some c) ∧
    (t.counselorId = none → t'.counselorId = none ∨
      ∃ v r n ok, op = Op.send v r n ∧ isCounselor v = true ∧
        t'.counselorId = some v.id ∧ (sendMessage v r σ n).1 = .ok ok ∧
        ok.claimedNow = true) := by
  obtain ⟨t'', h1, h2⟩ := applyOp_track hwf ht op
  rw [ht'] at h1
  have he : t'' = t' := (Option.some.inj h1).symm
  subst he
  refine ⟨h2.2.2.2.1, fun hn => ?_⟩
  rcases h2.2.2.2.2 hn with h | ⟨hp, hcid⟩
  · exact .inl h
  · right
    cases op with
    | send v r n =>
      obtain ⟨hcv, ok, hok, hcl⟩ := hp
      exact ⟨v, r, n, ok, rfl, hcv, hcid, hok, hcl⟩
    | ensure v r => exact hp.elim
    | read v i => exact hp.elim
    | close v i n => exact hp.elim

def wClaimedThread : Thread :=
  { tid := 1, studentId := 10, counselorId := some 20,
    claimedAt := some 3, participants := [10, 20],
    unreadCounts := [(10, 0), (20, 0)] }

def wClaimedStore : St := { threads := [wClaimedThread], nextTid := 2 }

/-- Witness for C1: a mark-read on a claimed thread leaves the assignment
untouched. -/
theorem counselorId_set_at_most_once_witness :
    WfSt wClaimedStore ∧
    findThread wClaimedStore 1 = some wClaimedThread ∧
    findThread (applyOp wClaimedStore (Op.read ⟨10, "Student"⟩ 1)) 1 =
      some wClaimedThread ∧
    ((∀ c, wClaimedThread.counselorId = some c →
        wClaimedThread.counselorId = some c) ∧
     (wClaimedThread.counselorId = none →
        wClaimedThread.counselorId = none ∨
        ∃ v r n ok, Op.read ⟨10, "Student"⟩ 1 = Op.send v r n ∧
          isCounselor v = true ∧
          wClaimedThread.counselorId = some v.id ∧
          (sendMessage v r wClaimedStore n).1 = .ok ok ∧
          ok.claimedNow = true)) :=
  ⟨by simp [WfSt, wClaimedStore], by decide, by decide,
   counselorId_set_at_most_once wClaimedStore (Op.read ⟨10, "Student"⟩ 1) 1
     wClaimedThread wClaimedThread (by simp [WfSt, wClaimedStore])
     (by decide) (by decide)⟩

/-- Claim C4: once a thread's identity is locked, its stored `anonymous`
value is frozen across every later operation, and a later student send whose
explicit `senderMode` conflicts with the frozen value fails with Conflict and
leaves the store (threads and messages alike) unchanged. -/
theorem identity_lock_frozen (σ : St) (x : Oid) (t : Thread)
    (ht : findThread σ x = some t) (hlock : t.identityLocked = true) :
    (∀ op t', WfSt σ → findThread (applyOp σ op) x = some t' →
      t'.identityLocked = true ∧ t'.anonymous = t.anonymous) ∧
    (∀ viewer req now m, isCounselor viewer = false → req.threadId = x →
      t.studentId = viewer.id → t.status = Status.open' →
      cleanText req.text ≠ [] → req.senderMode = some m →
      jsLower m ≠ "" → ¬ t.anonymous = (jsLower m == "anonymous") →
      sendMessage viewer req σ now = (.error .conflict, σ)) := by
  constructor
  · intro op t' hwf ht'
    obtain ⟨t'', h1, h2⟩ := applyOp_track hwf ht op
    rw [ht'] at h1
    have he : t'' = t' := (Option.some.inj h1).symm
    subst he
    obtain ⟨j1, j2, _⟩ := h2.2.2.1 hlock
    exact ⟨j1, j2⟩
  · intro viewer req now m hstu htid hown hopen htext hm hmne hconf
    subst htid
    have hlp : lockPhase viewer req.senderMode t now = .error .conflict := by
      simp only [lockPhase]
      rw [if_neg (by rw [hstu]; simp)]
      rw [hm]
      simp only [Option.getD_some]
      rw [if_pos hlock]
      rw [if_pos ⟨hmne, hconf⟩]
    simp only [sendMessage]
    rw [if_neg htext, ht]
    dsimp only
    simp only [sendMessageWith]
    rw [if_neg htext]
    rw [if_neg (by rw [hopen]; decide)]
    rw [if_neg (fun h => h.2 hown)]
    rw [hlp]

def wLockedThread : Thread :=
  { tid := 1, studentId := 10, participants := [10], anonymous := true,
    identityMode := .anonymous, identityLocked := true,
    identityLockedAt := some 4, unreadCounts := [(10, 0)] }

def wLockedStore : St := { threads := [wLockedThread], nextTid := 2 }

/-- Witness for C4 at a concrete locked anonymous thread. -/
theorem identity_lock_frozen_witness :
    findThread wLockedStore 1 = some wLockedThread ∧
    wLockedThread.identityLocked = true ∧
    ((∀ op t', WfSt wLockedStore →
        findThread (applyOp wLockedStore op) 1 = some t' →
        t'.identityLocked = true ∧ t'.anonymous = wLockedThread.anonymous) ∧
     (∀ viewer req now m, isCounselor viewer = false → req.threadId = 1 →
        wLockedThread.studentId = viewer.id →
        wLockedThread.status = Status.open' →
        cleanText req.text ≠ [] → req.senderMode = some m →
        jsLower m ≠ "" →
        ¬ wLockedThread.anonymous = (jsLower m == "anonymous") →
        sendMessage viewer req wLockedStore now =
          (.error .conflict, wLockedStore))) :=
  ⟨by decide, by decide,
   identity_lock_frozen wLockedStore 1 wLockedThread (by decide) (by decide)⟩

/-! ### Error and success characterizations of sendMessage -/

theorem sendMessage_error_state (viewer : Viewer) (req : SendReq) (σ : St)
    (now : Nat) :
    (∃ ok, (sendMessage viewer req σ now).1 = .ok ok) ∨
    (sendMessage viewer req σ now).2 = σ := by
  simp only [sendMessage]
  by_cases htext : cleanText req.text = []
  · rw [if_pos htext]
    exact .inr rfl
  rw [if_neg htext]
  cases hsnap : findThread σ req.threadId with
  | none => exact .inr rfl
  | some snap =>
    dsimp only
    simp only [sendMessageWith]
    rw [if_neg htext]
    by_cases hclosed : snap.status = Status.closed
    · rw [if_pos hclosed]
      exact .inr rfl
    rw [if_neg hclosed]
    by_cases hacc : ¬ isCounselor viewer = true ∧ snap.studentId ≠ viewer.id
    · rw [if_pos hacc]
      exact .inr rfl
    rw [if_neg hacc]
    cases hlp : lockPhase viewer req.senderMode snap now with
    | error e => exact .inr rfl
    | ok p =>
      obtain ⟨doc, didSave⟩ := p
      dsimp only
      cases hcp : claimPhase viewer doc req.threadId
          (if didSave = true then updThread σ doc else σ) now with
      | error e2 =>
        dsimp only
        right
        have hc : isCounselor viewer = true := claimPhase_error_counselor hcp
        have hl2 := lockPhase_counselor hc req.senderMode snap now
        rw [hlp] at hl2
        simp only [Except.ok.injEq, Prod.mk.injEq] at hl2
        rw [hl2.2]
        simp
      | ok q =>
        obtain ⟨σ2, th, cl⟩ := q
        dsimp only
        exact .inl ⟨_, rfl⟩

/-- Claim C6: a sendMessage request that fails with any error leaves the
store — thread records and message store alike — exactly unchanged. -/
theorem failed_send_has_no_effect (viewer : Viewer) (req : SendReq) (σ : St)
    (now : Nat) (e : Err)
    (h : (sendMessage viewer req σ now).1 = .error e) :
    (sendMessage viewer req σ now).2 = σ := by
  rcases sendMessage_error_state viewer req σ now with ⟨ok, hok⟩ | hst
  · rw [h] at hok
    exact absurd hok (by simp)
  · exact hst

/-- Witness for C6: an empty-text send fails and leaves the store intact. -/
theorem failed_send_has_no_effect_witness :
    (sendMessage ⟨10, "Student"⟩ { threadId := 1, text := [] }
      wClaimedStore 5).1 = .error .validationErr ∧
    (sendMessage ⟨10, "Student"⟩ { threadId := 1, text := [] }
      wClaimedStore 5).2 = wClaimedStore :=
  ⟨by rfl,
   failed_send_has_no_effect ⟨10, "Student"⟩ { threadId := 1, text := [] }
     wClaimedStore 5 .validationErr (by rfl)⟩

theorem counterUpd_unreadCounts (viewer : Viewer) (thread : Thread)
    (text : List Char) (ca : Nat) (cur : Thread) :
    (counterUpd viewer thread text ca cur).unreadCounts =
      if isCounselor viewer = true then
        ucInc (ucSet cur.unreadCounts viewer.id 0) thread.studentId
      else
        match thread.counselorId with
        | some c => ucInc (ucSet cur.unreadCounts viewer.id 0) c
        | none => ucSet cur.unreadCounts viewer.id 0 := by
  by_cases hc : isCounselor viewer = true
  · simp only [counterUpd, hc, if_true]
  · simp only [counterUpd, hc, if_false]
    cases thread.counselorId <;> rfl

theorem counterUpd_unassignedUnread (viewer : Viewer) (thread : Thread)
    (text : List Char) (ca : Nat) (cur : Thread) :
    (counterUpd viewer thread text ca cur).unassignedUnread =
      if isCounselor viewer = true then cur.unassignedUnread
      else
        match thread.counselorId with
        | some _ => cur.unassignedUnread
        | none => cur.unassignedUnread + 1 := by
  by_cases hc : isCounselor viewer = true
  · simp only [counterUpd, hc, if_true]
  · simp only [counterUpd, hc, if_false]
    cases thread.counselorId <;> rfl

theorem finishSend_find_tid {viewer : Viewer} {tid : Oid} {cid : Option String}
    {text : List Char} {thread : Thread} {σ : St} {now : Nat} {cl : Bool}
    {cur : Thread} (hcur : findThread σ tid = some cur) :
    ∃ ca, findThread (finishSend viewer tid cid text thread σ now cl).2 tid =
      some (counterUpd viewer thread text ca cur) := by
  rcases hdup : findDup σ tid viewer.id cid with _ | m
  · rw [finishSend_of_new hdup text thread now cl]
    refine ⟨now, ?_⟩
    dsimp only
    rw [hcur]
    dsimp only
    refine findThread_updThread_self hcur _ ?_
    have h1 := (counterUpd_fields viewer thread text now cur).1
    exact h1.trans (findThread_tid hcur)
  · rw [finishSend_of_dup hdup text thread now cl]
    refine ⟨m.createdAt, ?_⟩
    dsimp only
    rw [hcur]
    dsimp only
    refine findThread_updThread_self hcur _ ?_
    have h1 := (counterUpd_fields viewer thread text m.createdAt cur).1
    exact h1.trans (findThread_tid hcur)

theorem sendMessage_counselor_assigned_ok (viewer : Viewer) (req : SendReq)
    (σ : St) (now : Nat) {t : Thread}
    (ht : findThread σ req.threadId = some t)
    (htext : cleanText req.text ≠ []) (hopen : t.status = Status.open')
    (hc : isCounselor viewer = true)
    (hassigned : t.counselorId = some viewer.id) :
    ∃ ok, (sendMessage viewer req σ now).1 = .ok ok := by
  have hcp : claimPhase viewer t req.threadId σ now =
      .ok (updThread σ { t with
        participants := addToSet t.participants viewer.id }, t, false) := by
    simp only [claimPhase]
    rw [if_pos hc]
    split
    next c hcase =>
      have hcv : c = viewer.id := by
        rw [hassigned] at hcase
        exact (Option.some.inj hcase).symm
      subst hcv
      rw [if_pos rfl, ht]
    next hcase =>
      rw [hassigned] at hcase
      cases hcase
  simp only [sendMessage]
  rw [if_neg htext, ht]
  dsimp only
  simp only [sendMessageWith]
  rw [if_neg htext]
  rw [if_neg (by rw [hopen]; decide)]
  rw [if_neg (fun h => h.1 hc)]
  rw [lockPhase_counselor hc]
  dsimp only
  simp only [Bool.false_eq_true, if_false]
  rw [hcp]
  dsimp only
  exact ⟨_, rfl⟩

theorem sendMessage_student_assigned_ok (viewer : Viewer) (req : SendReq)
    (σ : St) (now : Nat) {t : Thread}
    (ht : findThread σ req.threadId = some t)
    (htext : cleanText req.text ≠ []) (hopen : t.status = Status.open')
    (hstu : isCounselor viewer = false) (hown : t.studentId = viewer.id)
    (hmode : req.senderMode = none) :
    ∃ ok, (sendMessage viewer req σ now).1 = .ok ok := by
  simp only [sendMessage]
  rw [if_neg htext, ht]
  dsimp only
  simp only [sendMessageWith]
  rw [if_neg htext]
  rw [if_neg (by rw [hopen]; decide)]
  rw [if_neg (fun h => h.2 hown)]
  simp only [lockPhase]
  rw [if_neg (by rw [hstu]; simp), hmode]
  simp only [Option.getD_none]
  by_cases hl : t.identityLocked = true
  · rw [if_pos hl]
    rw [if_neg (fun h => h.1 rfl)]
    dsimp only
    rw [claimPhase_student hstu]
    dsimp only
    exact ⟨_, rfl⟩
  · rw [if_neg hl]
    dsimp only
    rw [claimPhase_student hstu]
    dsimp only
    exact ⟨_, rfl⟩

theorem sendMessage_ok_counters {viewer : Viewer} {req : SendReq} {σ : St}
    {now : Nat} {ok : SendOk} {σ' : St} {t : Thread}
    (ht : findThread σ req.threadId = some t)
    (h : sendMessage viewer req σ now = (.ok ok, σ')) :
    ∃ t', findThread σ' req.threadId = some t' ∧
      t'.studentId = t.studentId ∧ t'.status = t.status ∧
      (isCounselor viewer = true →
        t'.unreadCounts =
          ucInc (ucSet t.unreadCounts viewer.id 0) t.studentId ∧
        t'.counselorId = (if t.counselorId = none then some viewer.id
          else t.counselorId) ∧
        t'.unassignedUnread = (if t.counselorId = none then 0
          else t.unassignedUnread)) ∧
      (isCounselor viewer = false →
        t'.counselorId = t.counselorId ∧
        t'.unreadCounts = (match t.counselorId with
          | some c => ucInc (ucSet t.unreadCounts viewer.id 0) c
          | none => ucSet t.unreadCounts viewer.id 0) ∧
        t'.unassignedUnread = (match t.counselorId with
          | some _ => t.unassignedUnread
          | none => t.unassignedUnread + 1)) := by
  simp only [sendMessage] at h
  by_cases htext : cleanText req.text = []
  · rw [if_pos htext] at h
    simp at h
  rw [if_neg htext, ht] at h
  dsimp only at h
  simp only [sendMessageWith] at h
  rw [if_neg htext] at h
  by_cases hclosed : t.status = Status.closed
  · rw [if_pos hclosed] at h
    simp at h
  rw [if_neg hclosed] at h
  by_cases hacc : ¬ isCounselor viewer = true ∧ t.studentId ≠ viewer.id
  · rw [if_pos hacc] at h
    simp at h
  rw [if_neg hacc] at h
  rcases hlp : lockPhase viewer req.senderMode t now with e | ⟨doc, didSave⟩
  · rw [hlp] at h
    dsimp only at h
    simp at h
  rw [hlp] at h
  dsimp only at h
  have hd : doc.tid = t.tid ∧ doc.studentId = t.studentId ∧
      doc.counselorId = t.counselorId ∧ doc.status = t.status ∧
      doc.unreadCounts = t.unreadCounts ∧
      doc.unassignedUnread = t.unassignedUnread := by
    rcases lockPhase_cases hlp with ⟨h1, _⟩ | ⟨_, _, _, h1⟩
    · rw [h1]
      exact ⟨rfl, rfl, rfl, rfl, rfl, rfl⟩
    · rw [h1]
      exact ⟨(preSave_fields _).1, (preSave_fields _).2.1,
        (preSave_fields _).2.2.1, (preSave_fields _).2.2.2.2.2.2.2.2.1,
        (preSave_fields _).2.2.2.2.2.2.2.2.2.1,
        (preSave_fields _).2.2.2.2.2.2.2.2.2.2⟩
  have hσ1 : findThread (if didSave = true then updThread σ doc else σ)
      req.threadId = some (if didSave = true then doc else t) := by
    cases didSave
    · simpa using ht
    · simp only [if_true]
      exact findThread_updThread_self ht doc
        (hd.1.trans (findThread_tid ht))
  have hd1 : (if didSave = true then doc else t).studentId = t.studentId ∧
      (if didSave = true then doc else t).counselorId = t.counselorId ∧
      (if didSave = true then doc else t).status = t.status ∧
      (if didSave = true then doc else t).unreadCounts = t.unreadCounts ∧
      (if didSave = true then doc else t).unassignedUnread =
        t.unassignedUnread := by
    cases didSave
    · simp
    · simpa using ⟨hd.2.1, hd.2.2.1, hd.2.2.2.1, hd.2.2.2.2.1, hd.2.2.2.2.2⟩
  rcases hcp : claimPhase viewer doc req.threadId
      (if didSave = true then updThread σ doc else σ) now with e | ⟨σ2, th, cl⟩
  · rw [hcp] at h
    dsimp only at h
    simp at h
  rw [hcp] at h
  dsimp only at h
  have hσ' : (finishSend viewer req.threadId req.clientId (cleanText req.text)
      th σ2 now cl).2 = σ' := congrArg Prod.snd h
  rw [← hσ']
  rcases claimPhase_cases hcp with ⟨hstu, hσ2, hth, _⟩ |
    ⟨hc, hdocc, hth, _, hrest⟩ |
    ⟨hc, hdocc, _, cur, hcur, hcurnone, hcuropen, hth, hσ2⟩
  · -- student sender
    subst hσ2 hth
    obtain ⟨ca, hfind⟩ := finishSend_find_tid hσ1
    refine ⟨_, hfind, ?_, ?_, fun hcc => absurd hcc (by rw [hstu]; simp),
      fun _ => ?_⟩
    · exact (counterUpd_fields _ _ _ _ _).2.1.trans hd1.1
    · exact (counterUpd_fields _ _ _ _ _).2.2.2.1.trans hd1.2.2.1
    · refine ⟨(counterUpd_fields _ _ _ _ _).2.2.1.trans hd1.2.1, ?_, ?_⟩
      · rw [counterUpd_unreadCounts, if_neg (by rw [hstu]; simp)]
        rw [hd.2.2.1, hd1.2.2.2.1]
      · rw [counterUpd_unassignedUnread, if_neg (by rw [hstu]; simp)]
        rw [hd.2.2.1, hd1.2.2.2.2]
  · -- counselor already assigned to this thread
    rcases hrest with ⟨cur, hcur, hσ2⟩ | ⟨hnone, _⟩
    · have hcd1 : cur = (if didSave = true then doc else t) := by
        rw [hσ1] at hcur
        exact (Option.some.inj hcur).symm
      have hctid : cur.tid = req.threadId := by
        rw [hcd1]
        cases didSave
        · simpa using findThread_tid ht
        · simpa using hd.1.trans (findThread_tid ht)
      have hcfields : cur.studentId = t.studentId ∧
          cur.counselorId = t.counselorId ∧ cur.status = t.status ∧
          cur.unreadCounts = t.unreadCounts ∧
          cur.unassignedUnread = t.unassignedUnread := by
        rw [hcd1]
        exact hd1
      have htc : t.counselorId = some viewer.id := by
        rw [← hd.2.2.1]
        exact hdocc
      rw [hσ2, hth]
      have hfind2 : findThread (updThread
          (if didSave = true then updThread σ doc else σ)
          { cur with participants := addToSet cur.participants viewer.id })
          req.threadId = some { cur with
            participants := addToSet cur.participants viewer.id } :=
        findThread_updThread_self hσ1 _ (by exact hctid)
      obtain ⟨ca, hfind⟩ := finishSend_find_tid hfind2
      refine ⟨_, hfind, ?_, ?_, fun _ => ?_,
        fun hcc => absurd hc (by rw [hcc]; simp)⟩
      · exact (counterUpd_fields _ _ _ _ _).2.1.trans hcfields.1
      · exact (counterUpd_fields _ _ _ _ _).2.2.2.1.trans hcfields.2.2.1
      · refine ⟨?_, ?_, ?_⟩
        · rw [counterUpd_unreadCounts, if_pos hc, hd.2.1]
          have h1 : ({ cur with
              participants := addToSet cur.participants viewer.id} :
                Thread).unreadCounts = t.unreadCounts := hcfields.2.2.2.1
          rw [h1]
        · refine (counterUpd_fields _ _ _ _ _).2.2.1.trans ?_
          show cur.counselorId = _
          rw [hcfields.2.1, if_neg (by rw [htc]; simp)]
        · rw [counterUpd_unassignedUnread, if_pos hc,
            if_neg (by rw [htc]; simp)]
          exact hcfields.2.2.2.2
    · rw [hσ1] at hnone
      exact absurd hnone (by simp)
  · -- counselor claims the thread now
    have hcd1 : cur = (if didSave = true then doc else t) := by
      rw [hσ1] at hcur
      exact (Option.some.inj hcur).symm
    have hctid : cur.tid = req.threadId := by
      rw [hcd1]
      cases didSave
      · simpa using findThread_tid ht
      · simpa using hd.1.trans (findThread_tid ht)
    have hcfields : cur.studentId = t.studentId ∧
        cur.counselorId = t.counselorId ∧ cur.status = t.status ∧
        cur.unreadCounts = t.unreadCounts ∧
        cur.unassignedUnread = t.unassignedUnread := by
      rw [hcd1]
      exact hd1
    have htc : t.counselorId = none := by
      rw [← hcfields.2.1]
      exact hcurnone
    have hthf : th.tid = cur.tid ∧ th.studentId = cur.studentId ∧
        th.counselorId = some viewer.id ∧ th.status = cur.status ∧
        th.unreadCounts = cur.unreadCounts ∧ th.unassignedUnread = 0 := by
      rw [hth]
      exact ⟨rfl, rfl, rfl, rfl, rfl, rfl⟩
    rw [hσ2]
    have hfind2 : findThread (updThread
        (if didSave = true then updThread σ doc else σ) th)
        req.threadId = some th :=
      findThread_updThread_self hσ1 th (hthf.1.trans hctid)
    obtain ⟨ca, hfind⟩ := finishSend_find_tid hfind2
    refine ⟨_, hfind, ?_, ?_, fun _ => ?_,
      fun hcc => absurd hc (by rw [hcc]; simp)⟩
    · exact (counterUpd_fields _ _ _ _ _).2.1.trans
        (hthf.2.1.trans hcfields.1)
    · exact (counterUpd_fields _ _ _ _ _).2.2.2.1.trans
        (hthf.2.2.2.1.trans hcfields.2.2.1)
    · refine ⟨?_, ?_, ?_⟩
      · rw [counterUpd_unreadCounts, if_pos hc, hthf.2.2.2.2.1,
          hcfields.2.2.2.1, hthf.2.1, hcfields.1]
      · exact (counterUpd_fields _ _ _ _ _).2.2.1.trans
          (hthf.2.2.1.trans (by rw [if_pos htc]))
      · rw [counterUpd_unassignedUnread, if_pos hc, if_pos htc,
          hthf.2.2.2.2.2]

/-- N repeated send calls with the same request. -/
def iterSend (viewer : Viewer) (req : SendReq) (now : Nat) : Nat → St → St
  | 0, σ => σ
  | n + 1, σ => iterSend viewer req now n (sendMessage viewer req σ now).2

theorem iterSend_counselor {viewer : Viewer} {req : SendReq} {now : Nat}
    (htext : cleanText req.text ≠ []) (hc : isCounselor viewer = true) :
    ∀ (n : Nat) (σ : St) (t : Thread), findThread σ req.threadId = some t →
      t.status = Status.open' → t.counselorId = some viewer.id →
      viewer.id ≠ t.studentId →
      ∃ t', findThread (iterSend viewer req now n σ) req.threadId = some t' ∧
        t'.studentId = t.studentId ∧ t'.status = Status.open' ∧
        t'.counselorId = some viewer.id ∧
        ucGet t'.unreadCounts t.studentId =
          ucGet t.unreadCounts t.studentId + n := by
  intro n
  induction n with
  | zero =>
    intro σ t ht hopen hass hne
    exact ⟨t, ht, rfl, hopen, hass, rfl⟩
  | succ n ih =>
    intro σ t ht hopen hass hne
    obtain ⟨ok, hok⟩ :=
      sendMessage_counselor_assigned_ok viewer req σ now ht htext hopen hc hass
    have hpair : sendMessage viewer req σ now =
        (.ok ok, (sendMessage viewer req σ now).2) := by
      rw [← hok]
    obtain ⟨t1, hfind1, hsid, hstat, hcpart, _⟩ :=
      sendMessage_ok_counters ht hpair
    have hc3 := hcpart hc
    have hass1 : t1.counselorId = some viewer.id := by
      rw [hc3.2.1, if_neg (by rw [hass]; simp)]
      exact hass
    have hcount1 : ucGet t1.unreadCounts t.studentId =
        ucGet t.unreadCounts t.studentId + 1 := by
      rw [hc3.1, ucGet_ucInc_self, ucGet_ucSet_ne _ _ _ _ (Ne.symm hne)]
    obtain ⟨t', hfind', h1, h2, h3, h4⟩ :=
      ih (sendMessage viewer req σ now).2 t1 hfind1 (hstat.trans hopen) hass1
        (by rw [hsid]; exact hne)
    refine ⟨t', by exact hfind', h1.trans hsid, h2, h3, ?_⟩
    rw [← hsid, h4, hsid, hcount1]
    omega

theorem iterSend_student {viewer : Viewer} {req : SendReq} {now : Nat}
    (htext : cleanText req.text ≠ []) (hstu : isCounselor viewer = false)
    (hmode : req.senderMode = none) :
    ∀ (n : Nat) (σ : St) (t : Thread) (c : Oid),
      findThread σ req.threadId = some t → t.status = Status.open' →
      t.studentId = viewer.id → t.counselorId = some c → c ≠ viewer.id →
      ∃ t', findThread (iterSend viewer req now n σ) req.threadId = some t' ∧
        t'.studentId = viewer.id ∧ t'.status = Status.open' ∧
        t'.counselorId = some c ∧
        ucGet t'.unreadCounts c = ucGet t.unreadCounts c + n := by
  intro n
  induction n with
  | zero =>
    intro σ t c ht hopen hown hass hne
    exact ⟨t, ht, hown, hopen, hass, rfl⟩
  | succ n ih =>
    intro σ t c ht hopen hown hass hne
    obtain ⟨ok, hok⟩ :=
      sendMessage_student_assigned_ok viewer req σ now ht htext hopen hstu
        hown hmode
    have hpair : sendMessage viewer req σ now =
        (.ok ok, (sendMessage viewer req σ now).2) := by
      rw [← hok]
    obtain ⟨t1, hfind1, hsid, hstat, _, hspart⟩ :=
      sendMessage_ok_counters ht hpair
    have hs3 := hspart hstu
    have hass1 : t1.counselorId = some c := by
      rw [hs3.1]
      exact hass
    have hcount1 : ucGet t1.unreadCounts c = ucGet t.unreadCounts c + 1 := by
      rw [hs3.2.1, hass]
      rw [ucGet_ucInc_self, ucGet_ucSet_ne _ _ _ _ hne]
    obtain ⟨t', hfind', h1, h2, h3, h4⟩ :=
      ih (sendMessage viewer req σ now).2 t1 c hfind1 (hstat.trans hopen)
        (hsid.trans hown) hass1 hne
    refine ⟨t', by exact hfind', h1, h2, h3, ?_⟩
    rw [h4, hcount1]
    omega

/-- Claim C5: on every successful send the sender's own unread entry is reset
to 0; a counselor's send increments the student's entry by one; a student's
send increments the assigned counselor's entry by one when `counselorId` is
set and otherwise increments `unassignedUnread`; and N repeated unread sends
from A to B raise `unreadCounts[B]` from its base value by exactly N. -/
theorem unread_counter_update :
    (∀ (viewer : Viewer) (req : SendReq) (σ : St) (now : Nat) (ok : SendOk)
       (σ' : St) (t : Thread), findThread σ req.threadId = some t →
       sendMessage viewer req σ now = (.ok ok, σ') →
       ∃ t', findThread σ' req.threadId = some t' ∧
         (isCounselor viewer = true → viewer.id ≠ t.studentId →
            ucGet t'.unreadCounts viewer.id = 0 ∧
            ucGet t'.unreadCounts t.studentId =
              ucGet t.unreadCounts t.studentId + 1) ∧
         (isCounselor viewer = false →
            (∀ c, t.counselorId = some c → c ≠ viewer.id →
              ucGet t'.unreadCounts viewer.id = 0 ∧
              ucGet t'.unreadCounts c = ucGet t.unreadCounts c + 1) ∧
            (t.counselorId = none →
              ucGet t'.unreadCounts viewer.id = 0 ∧
              t'.unassignedUnread = t.unassignedUnread + 1))) ∧
    (∀ (viewer : Viewer) (req : SendReq) (now n : Nat) (σ : St) (t : Thread),
       cleanText req.text ≠ [] → isCounselor viewer = true →
       findThread σ req.threadId = some t → t.status = Status.open' →
       t.counselorId = some viewer.id → viewer.id ≠ t.studentId →
       ∃ t', findThread (iterSend viewer req now n σ) req.threadId =
           some t' ∧
         ucGet t'.unreadCounts t.studentId =
           ucGet t.unreadCounts t.studentId + n) ∧
    (∀ (viewer : Viewer) (req : SendReq) (now n : Nat) (σ : St) (t : Thread)
       (c : Oid),
       cleanText req.text ≠ [] → isCounselor viewer = false →
       req.senderMode = none → findThread σ req.threadId = some t →
       t.status = Status.open' → t.studentId = viewer.id →
       t.counselorId = some c → c ≠ viewer.id →
       ∃ t', findThread (iterSend viewer req now n σ) req.threadId =
           some t' ∧
         ucGet t'.unreadCounts c = ucGet t.unreadCounts c + n) := by
  refine ⟨?_, ?_, ?_⟩
  · intro viewer req σ now ok σ' t ht h
    obtain ⟨t', hfind, _, _, hcpart, hspart⟩ := sendMessage_ok_counters ht h
    refine ⟨t', hfind, fun hc hne => ?_, fun hstu => ⟨fun c hcc hne => ?_,
      fun hnone => ?_⟩⟩
    · obtain ⟨huc, _, _⟩ := hcpart hc
      rw [huc]
      constructor
      · rw [ucGet_ucInc_ne _ _ _ hne, ucGet_ucSet_self]
      · rw [ucGet_ucInc_self, ucGet_ucSet_ne _ _ _ _ (Ne.symm hne)]
    · obtain ⟨_, huc, _⟩ := hspart hstu
      rw [huc, hcc]
      constructor
      · rw [ucGet_ucInc_ne _ _ _ (Ne.symm hne), ucGet_ucSet_self]
      · rw [ucGet_ucInc_self, ucGet_ucSet_ne _ _ _ _ hne]
    · obtain ⟨_, huc, hun⟩ := hspart hstu
      rw [huc, hnone, hun, hnone]
      exact ⟨ucGet_ucSet_self _ _ _, rfl⟩
  · intro viewer req now n σ t htext hc ht hopen hass hne
    obtain ⟨t', hfind, _, _, _, hcount⟩ :=
      iterSend_counselor htext hc n σ t ht hopen hass hne
    exact ⟨t', hfind, hcount⟩
  · intro viewer req now n σ t c htext hstu hmode ht hopen hown hass hne
    obtain ⟨t', hfind, _, _, _, hcount⟩ :=
      iterSend_student htext hstu hmode n σ t c ht hopen hown hass hne
    exact ⟨t', hfind, hcount⟩

def wCounselorReq : SendReq := { threadId := 1, text := ['h', 'i'] }

def wStudentReq : SendReq := { threadId := 1, text := ['y', 'o'] }

/-- Witness for C5: concrete counter updates on the claimed example thread. -/
theorem unread_counter_update_witness :
    (∃ t', findThread
        (sendMessage ⟨20, "Counselor"⟩ wCounselorReq wClaimedStore 6).2 1 =
          some t' ∧
        ucGet t'.unreadCounts 20 = 0 ∧ ucGet t'.unreadCounts 10 = 1) ∧
    (∃ t', findThread
        (iterSend ⟨20, "Counselor"⟩ wCounselorReq 6 3 wClaimedStore) 1 =
          some t' ∧
        ucGet t'.unreadCounts 10 = 3) ∧
    (∃ t', findThread
        (iterSend ⟨10, "Student"⟩ wStudentReq 6 2 wClaimedStore) 1 =
          some t' ∧
        ucGet t'.unreadCounts 20 = 2) := by
  refine ⟨?_, ?_, ?_⟩
  · obtain ⟨ok, hok⟩ := sendMessage_counselor_assigned_ok ⟨20, "Counselor"⟩
      wCounselorReq wClaimedStore 6 (t := wClaimedThread) (by decide)
      (by decide) (by decide) (by decide) (by decide)
    have hpair : sendMessage ⟨20, "Counselor"⟩ wCounselorReq wClaimedStore 6 =
        (.ok ok, (sendMessage ⟨20, "Counselor"⟩ wCounselorReq
          wClaimedStore 6).2) := by
      rw [← hok]
    obtain ⟨t', hfind, hcp, _⟩ := unread_counter_update.1 ⟨20, "Counselor"⟩
      wCounselorReq wClaimedStore 6 ok _ wClaimedThread (by decide) hpair
    obtain ⟨h0, h1⟩ := hcp (by decide) (by decide)
    refine ⟨t', hfind, h0, ?_⟩
    show ucGet t'.unreadCounts wClaimedThread.studentId = 1
    rw [h1]
    decide
  · obtain ⟨t', hfind, hcount⟩ := unread_counter_update.2.1 ⟨20, "Counselor"⟩
      wCounselorReq 6 3 wClaimedStore wClaimedThread (by decide) (by decide)
      (by decide) (by decide) (by decide) (by decide)
    refine ⟨t', hfind, ?_⟩
    show ucGet t'.unreadCounts wClaimedThread.studentId = 3
    rw [hcount]
    decide
  · obtain ⟨t', hfind, hcount⟩ := unread_counter_update.2.2 ⟨10, "Student"⟩
      wStudentReq 6 2 wClaimedStore wClaimedThread 20 (by decide) (by decide)
      (by decide) (by decide) (by decide) (by decide) (by decide) (by decide)
    refine ⟨t', hfind, ?_⟩
    rw [hcount]
    decide

theorem ucZeroAll1 (uc : UnreadMap) (s : Oid)
    (hsub : ∀ k, ucGet uc k ≠ 0 → k = s) :
    ∀ k, ucGet (ucSet uc s 0) k = 0 := by
  intro k
  by_cases hks : k = s
  · rw [hks, ucGet_ucSet_self]
  · rw [ucGet_ucSet_ne _ _ _ _ hks]
    by_cases hz : ucGet uc k = 0
    · exact hz
    · exact absurd (hsub k hz) hks

theorem ucZeroAll2 (uc : UnreadMap) (s v : Oid)
    (hsub : ∀ k, ucGet uc k ≠ 0 → k = s ∨ k = v) :
    ∀ k, ucGet (ucSet (ucSet uc s 0) v 0) k = 0 := by
  intro k
  by_cases hkv : k = v
  · rw [hkv, ucGet_ucSet_self]
  · rw [ucGet_ucSet_ne _ _ _ _ hkv]
    by_cases hks : k = s
    · rw [hks, ucGet_ucSet_self]
    · rw [ucGet_ucSet_ne _ _ _ _ hks]
      by_cases hz : ucGet uc k = 0
      · exact hz
      · rcases hsub k hz with h | h
        · exact absurd h hks
        · exact absurd h hkv

/-- Claim C9: closing succeeds exactly for the thread's student or its
assigned counselor (never for a counselor on an unclaimed thread); the first
close stamps `status/closedAt/closedBy` and zeroes `unassignedUnread`, the
student's and the assigned counselor's unread entries — hence every entry,
when the unread keys are among the participants as the data model demands;
closing an already-closed thread returns success with no state change. -/
theorem closeThread_spec (viewer : Viewer) (x : Oid) (σ : St) (now : Nat)
    (t : Thread) (ht : findThread σ x = some t) :
    ((closeThread viewer x σ now).1.isOk = true ↔
      ((isCounselor viewer = false ∧ t.studentId = viewer.id) ∨
       (isCounselor viewer = true ∧ t.counselorId = some viewer.id))) ∧
    (t.status = Status.open' →
      ((isCounselor viewer = false ∧ t.studentId = viewer.id) ∨
       (isCounselor viewer = true ∧ t.counselorId = some viewer.id)) →
      ∃ t', findThread (closeThread viewer x σ now).2 x = some t' ∧
        t'.status = Status.closed ∧ t'.closedAt = some now ∧
        t'.closedBy = some viewer.id ∧ t'.unassignedUnread = 0 ∧
        ucGet t'.unreadCounts t.studentId = 0 ∧
        (∀ c, t.counselorId = some c → ucGet t'.unreadCounts c = 0) ∧
        ((∀ k, ucGet t.unreadCounts k ≠ 0 →
            k = t.studentId ∨ t.counselorId = some k) →
          ∀ k, ucGet t'.unreadCounts k = 0)) ∧
    (t.status = Status.closed →
      ((isCounselor viewer = false ∧ t.studentId = viewer.id) ∨
       (isCounselor viewer = true ∧ t.counselorId = some viewer.id)) →
      closeThread viewer x σ now = (.ok (), σ)) := by
  simp only [closeThread]
  rw [ht]
  dsimp only
  by_cases hc : isCounselor viewer = true
  · rw [if_neg (fun h => h.1 hc)]
    cases hcid : t.counselorId with
    | none =>
      rw [if_pos ⟨hc, by simp⟩]
      refine ⟨?_, fun _ hauth => ?_, fun _ hauth => ?_⟩
      · constructor
        · intro habs
          exact absurd habs (by simp [Except.isOk, Except.toBool])
        · rintro (⟨hcf, _⟩ | ⟨_, hsome⟩)
          · rw [hc] at hcf
            cases hcf
          · cases hsome
      · rcases hauth with ⟨hcf, _⟩ | ⟨_, hsome⟩
        · rw [hc] at hcf
          cases hcf
        · cases hsome
      · rcases hauth with ⟨hcf, _⟩ | ⟨_, hsome⟩
        · rw [hc] at hcf
          cases hcf
        · cases hsome
    | some c0 =>
      rw [if_neg (fun h => by cases h.2)]
      by_cases hcv : c0 = viewer.id
      · subst hcv
        rw [if_neg (fun h => h.2 rfl)]
        by_cases hst : t.status = Status.closed
        · rw [if_pos hst]
          refine ⟨?_, fun hopen _ => ?_, fun _ _ => rfl⟩
          · simp only [Except.isOk]
            constructor
            · intro _
              exact .inr ⟨hc, by simp⟩
            · intro _
              rfl
          · rw [hopen] at hst
            cases hst
        · rw [if_neg hst]
          dsimp only
          refine ⟨?_, fun _ _ => ?_, fun hcl _ => absurd hcl hst⟩
          · simp only [Except.isOk]
            constructor
            · intro _
              exact .inr ⟨hc, by simp⟩
            · intro _
              rfl
          · refine ⟨_, findThread_updThread_self ht _
              (by exact findThread_tid (t := t) ht), rfl, rfl, rfl, rfl,
              ?_, ?_, ?_⟩
            · show ucGet (ucSet (ucSet t.unreadCounts t.studentId 0)
                viewer.id 0) t.studentId = 0
              by_cases hsv : t.studentId = viewer.id
              · rw [hsv, ucGet_ucSet_self]
              · rw [ucGet_ucSet_ne _ _ _ _ hsv, ucGet_ucSet_self]
            · intro c hcc
              have : c = viewer.id := Option.some.inj hcc.symm
              subst this
              exact ucGet_ucSet_self _ _ _
            · intro hsub
              refine ucZeroAll2 _ _ _ (fun k hk => ?_)
              rcases hsub k hk with h | h
              · exact .inl h
              · exact .inr (Option.some.inj h.symm)
      · rw [if_pos ⟨hc, fun h => hcv (Option.some.inj h)⟩]
        refine ⟨?_, fun _ hauth => ?_, fun _ hauth => ?_⟩
        · constructor
          · intro habs
            exact absurd habs (by simp [Except.isOk, Except.toBool])
          · rintro (⟨hcf, _⟩ | ⟨_, hsome⟩)
            · rw [hc] at hcf
              cases hcf
            · exact absurd (Option.some.inj hsome) hcv
        · rcases hauth with ⟨hcf, _⟩ | ⟨_, hsome⟩
          · rw [hc] at hcf
            cases hcf
          · exact absurd (Option.some.inj hsome) hcv
        · rcases hauth with ⟨hcf, _⟩ | ⟨_, hsome⟩
          · rw [hc] at hcf
            cases hcf
          · exact absurd (Option.some.inj hsome) hcv
  · have hcf : isCounselor viewer = false := by simpa using hc
    by_cases hsid : t.studentId = viewer.id
    · rw [if_neg (fun h => h.2 hsid), if_neg (fun h => hc h.1),
        if_neg (fun h => hc h.1)]
      by_cases hst : t.status = Status.closed
      · rw [if_pos hst]
        refine ⟨?_, fun hopen _ => ?_, fun _ _ => rfl⟩
        · simp only [Except.isOk]
          constructor
          · intro _
            exact .inl ⟨hcf, hsid⟩
          · intro _
            rfl
        · rw [hopen] at hst
          cases hst
      · rw [if_neg hst]
        cases hcid : t.counselorId with
        | none =>
          dsimp only
          refine ⟨?_, fun _ _ => ?_, fun hcl _ => absurd hcl hst⟩
          · simp only [Except.isOk]
            constructor
            · intro _
              exact .inl ⟨hcf, hsid⟩
            · intro _
              rfl
          · refine ⟨_, findThread_updThread_self ht _
              (by exact findThread_tid (t := t) ht), rfl, rfl, rfl, rfl,
              ?_, ?_, ?_⟩
            · exact ucGet_ucSet_self _ _ _
            · intro c hcc
              cases hcc
            · intro hsub
              refine ucZeroAll1 _ _ (fun k hk => ?_)
              rcases hsub k hk with h | h
              · exact h
              · cases h
        | some c0 =>
          dsimp only
          refine ⟨?_, fun _ _ => ?_, fun hcl _ => absurd hcl hst⟩
          · simp only [Except.isOk]
            constructor
            · intro _
              exact .inl ⟨hcf, hsid⟩
            · intro _
              rfl
          · refine ⟨_, findThread_updThread_self ht _
              (by exact findThread_tid (t := t) ht), rfl, rfl, rfl, rfl,
              ?_, ?_, ?_⟩
            · show ucGet (ucSet (ucSet t.unreadCounts t.studentId 0) c0 0)
                t.studentId = 0
              by_cases hsv : t.studentId = c0
              · rw [hsv, ucGet_ucSet_self]
              · rw [ucGet_ucSet_ne _ _ _ _ hsv, ucGet_ucSet_self]
            · intro c hcc
              have : c = c0 := Option.some.inj hcc.symm
              subst this
              exact ucGet_ucSet_self _ _ _
            · intro hsub
              refine ucZeroAll2 _ _ _ (fun k hk => ?_)
              rcases hsub k hk with h | h
              · exact .inl h
              · exact .inr (Option.some.inj h.symm)
    · rw [if_pos ⟨(fun h => by rw [hcf] at h; cases h), hsid⟩]
      refine ⟨?_, fun _ hauth => ?_, fun _ hauth => ?_⟩
      · constructor
        · intro habs
          exact absurd habs (by simp [Except.isOk, Except.toBool])
        · rintro (⟨_, hsid2⟩ | ⟨hct, _⟩)
          · exact absurd hsid2 hsid
          · rw [hct] at hcf
            cases hcf
      · rcases hauth with ⟨_, hsid2⟩ | ⟨hct, _⟩
        · exact absurd hsid2 hsid
        · rw [hct] at hcf
          cases hcf
      · rcases hauth with ⟨_, hsid2⟩ | ⟨hct, _⟩
        · exact absurd hsid2 hsid
        · rw [hct] at hcf
          cases hcf

/-- Witness for C9: the student closes the claimed example thread. -/
theorem closeThread_spec_witness :
    findThread wClaimedStore 1 = some wClaimedThread ∧
    (closeThread ⟨10, "Student"⟩ 1 wClaimedStore 9).1.isOk = true ∧
    (∃ t', findThread (closeThread ⟨10, "Student"⟩ 1 wClaimedStore 9).2 1 =
        some t' ∧
      t'.status = Status.closed ∧ t'.closedAt = some 9 ∧
      t'.closedBy = some 10 ∧ t'.unassignedUnread = 0 ∧
      (∀ k, ucGet t'.unreadCounts k = 0)) := by
  have h := closeThread_spec ⟨10, "Student"⟩ 1 wClaimedStore 9 wClaimedThread
    (by decide)
  refine ⟨by decide, ?_, ?_⟩
  · exact h.1.mpr (.inl ⟨by decide, by decide⟩)
  · obtain ⟨t', hf, h1, h2, h3, h4, _, _, h7⟩ :=
      h.2.1 (by decide) (.inl ⟨by decide, by decide⟩)
    have hz : ∀ k, ucGet wClaimedThread.unreadCounts k = 0 := by
      intro k
      show ucGet [(10, 0), (20, 0)] k = 0
      simp only [ucGet]
      split_ifs <;> rfl
    exact ⟨t', hf, h1, h2, h3, h4, h7 (fun k hk => absurd (hz k) hk)⟩

/-- Counterexample for C8: the claim says an admin viewer succeeds on any
thread (system-wide read), but `canAccessThread` grants system-wide read only
to counselors, so an admin reading another student's thread is refused. -/
theorem getThread_admin_forbidden :
    getThread ⟨30, "Admin"⟩ 1 wClaimedStore = .error .forbidden := by
  rfl

/-- Claim C8 (amended): getThread fails with NotFound for an absent id, fails
with Forbidden for every non-counselor viewer (students and admins alike) who
does not own the thread, succeeds for every counselor (system-wide read) with
`studentId` masked to null unless the thread is non-anonymous and assigned to
that counselor, and succeeds unmasked for the owning student. -/
theorem getThread_spec (viewer : Viewer) (x : Oid) (σ : St) :
    (findThread σ x = none → getThread viewer x σ = .error .notFound) ∧
    (∀ t, findThread σ x = some t → isCounselor viewer = false →
      t.studentId ≠ viewer.id → getThread viewer x σ = .error .forbidden) ∧
    (∀ t, findThread σ x = some t → isCounselor viewer = true →
      getThread viewer x σ = .ok (t,
        if t.anonymous = false ∧ t.counselorId = some viewer.id
        then some t.studentId else none)) ∧
    (∀ t, findThread σ x = some t → isCounselor viewer = false →
      t.studentId = viewer.id →
      getThread viewer x σ = .ok (t, some t.studentId)) := by
  refine ⟨fun hn => ?_, fun t ht hc hne => ?_, fun t ht hc => ?_,
    fun t ht hc hsid => ?_⟩
  · simp only [getThread]
    rw [hn]
  · have hca : canAccessThread t viewer = false := by
      simp [canAccessThread, hc, hne]
    simp only [getThread]
    rw [ht]
    dsimp only
    rw [if_neg (by simp [hca])]
  · have hca : canAccessThread t viewer = true := by
      simp [canAccessThread, hc]
    have hmask : maskedStudentId t viewer =
        (if t.anonymous = false ∧ t.counselorId = some viewer.id
         then some t.studentId else none) := by
      simp only [maskedStudentId]
      rw [if_pos hc]
      by_cases ha : t.anonymous = true
      · rw [if_pos ha, if_neg (fun hh => by rw [ha] at hh; cases hh.1)]
      · have ha' : t.anonymous = false := by simpa using ha
        rw [if_neg ha]
        by_cases hcid : t.counselorId = some viewer.id
        · rw [if_pos hcid, if_pos ⟨ha', hcid⟩]
        · rw [if_neg hcid, if_neg (fun hh => hcid hh.2)]
    simp only [getThread]
    rw [ht]
    dsimp only
    rw [if_pos hca, hmask]
  · have hca : canAccessThread t viewer = true := by
      simp [canAccessThread, hsid]
    have hmask : maskedStudentId t viewer = some t.studentId := by
      simp only [maskedStudentId]
      rw [if_neg (by simp [hc])]
    simp only [getThread]
    rw [ht]
    dsimp only
    rw [if_pos hca, hmask]

/-- Witness for C8 (amended) at concrete viewers on the example store. -/
theorem getThread_spec_witness :
    findThread wClaimedStore 1 = some wClaimedThread ∧
    getThread ⟨99, "Student"⟩ 1 wClaimedStore = .error .forbidden ∧
    getThread ⟨20, "Counselor"⟩ 1 wClaimedStore =
      .ok (wClaimedThread, some 10) ∧
    getThread ⟨21, "Counselor"⟩ 1 wClaimedStore = .ok (wClaimedThread, none) ∧
    getThread ⟨10, "Student"⟩ 1 wClaimedStore =
      .ok (wClaimedThread, some 10) ∧
    getThread ⟨10, "Student"⟩ 7 wClaimedStore = .error .notFound := by
  refine ⟨by decide, ?_, ?_, ?_, ?_, ?_⟩
  · exact (getThread_spec ⟨99, "Student"⟩ 1 wClaimedStore).2.1 wClaimedThread
      (by decide) (by decide) (by decide)
  · have h := (getThread_spec ⟨20, "Counselor"⟩ 1 wClaimedStore).2.2.1
      wClaimedThread (by decide) (by decide)
    rw [h, if_pos ⟨by decide, by decide⟩]
    rfl
  · have h := (getThread_spec ⟨21, "Counselor"⟩ 1 wClaimedStore).2.2.1
      wClaimedThread (by decide) (by decide)
    rw [h, if_neg (fun hh => by exact absurd hh.2 (by decide))]
  · exact (getThread_spec ⟨10, "Student"⟩ 1 wClaimedStore).2.2.2
      wClaimedThread (by decide) (by decide) (by decide)
  · exact (getThread_spec ⟨10, "Student"⟩ 7 wClaimedStore).1 (by decide)

def wAnonThread : Thread :=
  { tid := 1, studentId := 10, participants := [10], anonymous := true,
    identityMode := .anonymous, unreadCounts := [(10, 0)] }

def wAnonStore : St := { threads := [wAnonThread], nextTid := 2 }

/-- Claim C3 (divergence): on a thread whose pre-send identity choice is
`anonymous = true` and which is not yet locked, a first student send that
leaves `senderMode` unspecified succeeds but locks the identity to
`anonymous = false` — the code defaults the lock to non-anonymous instead of
the thread's current `anonymous` value. -/
theorem send_without_senderMode_drops_anonymous :
    wAnonThread.anonymous = true ∧ wAnonThread.identityLocked = false ∧
    (sendMessage ⟨10, "Student"⟩ { threadId := 1, text := ['h', 'i'] }
      wAnonStore 5).1.isOk = true ∧
    ∃ t', findThread (sendMessage ⟨10, "Student"⟩
        { threadId := 1, text := ['h', 'i'] } wAnonStore 5).2 1 = some t' ∧
      t'.identityLocked = true ∧ t'.anonymous = false ∧
      t'.identityMode = IdentityMode.student := by
  refine ⟨by decide, by decide, by rfl, ?_⟩
  refine ⟨_, rfl, by decide, by decide, by decide⟩

theorem sendMessage_messages_none (viewer : Viewer) (req : SendReq) (σ : St)
    (now : Nat) (hcid : req.clientId = none) :
    (∃ e, (sendMessage viewer req σ now).1 = .error e ∧
      (sendMessage viewer req σ now).2.messages = σ.messages) ∨
    (∃ cl, (sendMessage viewer req σ now).1 =
        .ok ⟨newMessage viewer req.threadId none
          (cleanText req.text) σ now, cl⟩ ∧
      (sendMessage viewer req σ now).2.messages = σ.messages ++
        [newMessage viewer req.threadId none (cleanText req.text) σ now]) := by
  simp only [sendMessage]
  by_cases htext : cleanText req.text = []
  · rw [if_pos htext]
    exact .inl ⟨_, rfl, rfl⟩
  rw [if_neg htext]
  rcases hsnap : findThread σ req.threadId with _ | snap
  · exact .inl ⟨_, rfl, rfl⟩
  dsimp only
  simp only [sendMessageWith]
  rw [if_neg htext]
  by_cases hclosed : snap.status = Status.closed
  · rw [if_pos hclosed]
    exact .inl ⟨_, rfl, rfl⟩
  rw [if_neg hclosed]
  by_cases hacc : ¬ isCounselor viewer = true ∧ snap.studentId ≠ viewer.id
  · rw [if_pos hacc]
    exact .inl ⟨_, rfl, rfl⟩
  rw [if_neg hacc]
  rcases hlp : lockPhase viewer req.senderMode snap now with e | ⟨doc, didSave⟩
  · exact .inl ⟨_, rfl, rfl⟩
  dsimp only
  rcases hcp : claimPhase viewer doc req.threadId
      (if didSave = true then updThread σ doc else σ) now with e | ⟨σ2, th, cl⟩
  · dsimp only
    cases didSave
    · exact .inl ⟨_, rfl, rfl⟩
    · exact .inl ⟨_, rfl, rfl⟩
  dsimp only
  have hm2 : σ2.messages = σ.messages ∧ σ2.nextMid = σ.nextMid := by
    rcases claimPhase_cases hcp with ⟨_, hσ2, _, _⟩ |
      ⟨_, _, _, _, hrest⟩ | ⟨_, _, _, cur, _, _, _, _, hσ2⟩
    · subst hσ2
      cases didSave
      · exact ⟨rfl, rfl⟩
      · exact ⟨rfl, rfl⟩
    · rcases hrest with ⟨cur, _, hσ2⟩ | ⟨_, hσ2⟩ <;>
        (subst hσ2; cases didSave)
      · exact ⟨rfl, rfl⟩
      · exact ⟨rfl, rfl⟩
      · exact ⟨rfl, rfl⟩
      · exact ⟨rfl, rfl⟩
    · subst hσ2
      cases didSave
      · exact ⟨rfl, rfl⟩
      · exact ⟨rfl, rfl⟩
  have hnm : newMessage viewer req.threadId none (cleanText req.text) σ2 now =
      newMessage viewer req.threadId none (cleanText req.text) σ now := by
    simp only [newMessage, hm2.2]
  rw [hcid]
  have hdup : findDup σ2 req.threadId viewer.id none = none := rfl
  rw [finishSend_of_new hdup]
  rcases hfind2 : findThread σ2 req.threadId with _ | cur2
  · dsimp only
    right
    refine ⟨cl, by rw [hnm], ?_⟩
    show σ2.messages ++ [newMessage viewer req.threadId none
      (cleanText req.text) σ2 now] = _
    rw [hm2.1, hnm]
  · dsimp only
    right
    refine ⟨cl, by rw [hnm], ?_⟩
    show σ2.messages ++ [newMessage viewer req.threadId none
      (cleanText req.text) σ2 now] = _
    rw [hm2.1, hnm]

theorem sendMessage_messages (viewer : Viewer) (req : SendReq) (σ : St)
    (now : Nat) :
    (sendMessage viewer req σ now).2.messages = σ.messages ∨
    (sendMessage viewer req σ now).2.messages = σ.messages ++
      [newMessage viewer req.threadId req.clientId
        (cleanText req.text) σ now] := by
  simp only [sendMessage]
  by_cases htext : cleanText req.text = []
  · rw [if_pos htext]
    exact .inl rfl
  rw [if_neg htext]
  rcases hsnap : findThread σ req.threadId with _ | snap
  · exact .inl rfl
  dsimp only
  simp only [sendMessageWith]
  rw [if_neg htext]
  by_cases hclosed : snap.status = Status.closed
  · rw [if_pos hclosed]
    exact .inl rfl
  rw [if_neg hclosed]
  by_cases hacc : ¬ isCounselor viewer = true ∧ snap.studentId ≠ viewer.id
  · rw [if_pos hacc]
    exact .inl rfl
  rw [if_neg hacc]
  rcases hlp : lockPhase viewer req.senderMode snap now with e | ⟨doc, didSave⟩
  · exact .inl rfl
  dsimp only
  rcases hcp : claimPhase viewer doc req.threadId
      (if didSave = true then updThread σ doc else σ) now with e | ⟨σ2, th, cl⟩
  · dsimp only
    cases didSave
    · exact .inl rfl
    · exact .inl rfl
  dsimp only
  have hm2 : σ2.messages = σ.messages ∧ σ2.nextMid = σ.nextMid := by
    rcases claimPhase_cases hcp with ⟨_, hσ2, _, _⟩ |
      ⟨_, _, _, _, hrest⟩ | ⟨_, _, _, cur, _, _, _, _, hσ2⟩
    · subst hσ2
      cases didSave
      · exact ⟨rfl, rfl⟩
      · exact ⟨rfl, rfl⟩
    · rcases hrest with ⟨cur, _, hσ2⟩ | ⟨_, hσ2⟩ <;>
        (subst hσ2; cases didSave)
      · exact ⟨rfl, rfl⟩
      · exact ⟨rfl, rfl⟩
      · exact ⟨rfl, rfl⟩
      · exact ⟨rfl, rfl⟩
    · subst hσ2
      cases didSave
      · exact ⟨rfl, rfl⟩
      · exact ⟨rfl, rfl⟩
  have hnm : newMessage viewer req.threadId req.clientId (cleanText req.text)
      σ2 now = newMessage viewer req.threadId req.clientId
        (cleanText req.text) σ now := by
    simp only [newMessage, hm2.2]
  rcases hdup : findDup σ2 req.threadId viewer.id req.clientId with _ | m
  · rw [finishSend_of_new hdup]
    rcases hfind2 : findThread σ2 req.threadId with _ | cur2
    · dsimp only
      right
      show σ2.messages ++ [newMessage viewer req.threadId req.clientId
        (cleanText req.text) σ2 now] = _
      rw [hm2.1, hnm]
    · dsimp only
      right
      show σ2.messages ++ [newMessage viewer req.threadId req.clientId
        (cleanText req.text) σ2 now] = _
      rw [hm2.1, hnm]
  · rw [finishSend_of_dup hdup]
    rcases hfind2 : findThread σ2 req.threadId with _ | cur2
    · dsimp only
      exact .inl hm2.1
    · dsimp only
      exact .inl hm2.1

/-- Claim C10 (amended): a send whose text is empty after control-character
stripping and trimming is rejected with a validation error and leaves the
store unchanged; over-long text is NOT rejected — `cleanText` truncates to the
first 2000 characters, every stored text has length at most 2000, and any
message a send appends carries exactly the cleaned (possibly truncated)
text. -/
theorem sendMessage_text_validation :
    (∀ (viewer : Viewer) (req : SendReq) (σ : St) (now : Nat),
      cleanText req.text = [] →
      sendMessage viewer req σ now = (.error .validationErr, σ)) ∧
    (∀ s : List Char, (cleanText s).length ≤ 2000) ∧
    (∀ (viewer : Viewer) (req : SendReq) (σ : St) (now : Nat),
      (sendMessage viewer req σ now).2.messages = σ.messages ∨
      ∃ m, (sendMessage viewer req σ now).2.messages = σ.messages ++ [m] ∧
        m.text = cleanText req.text ∧ m.text.length ≤ 2000) := by
  refine ⟨fun viewer req σ now h => ?_, cleanText_length_le,
    fun viewer req σ now => ?_⟩
  · simp only [sendMessage]
    rw [if_pos h]
  · rcases sendMessage_messages viewer req σ now with h | h
    · exact .inl h
    · exact .inr ⟨_, h, rfl, cleanText_length_le _⟩

/-- Counterexample for C10: a 2001-character text is not rejected — the send
succeeds and stores the text truncated to 2000 characters. -/
theorem overlong_text_truncated_not_rejected :
    (sendMessage ⟨10, "Student"⟩
      { threadId := 1, text := List.replicate 2001 'a' } wAnonStore 5).1.isOk
      = true ∧
    ∃ m, (sendMessage ⟨10, "Student"⟩
        { threadId := 1, text := List.replicate 2001 'a' } wAnonStore 5).2.messages
        = [m] ∧
      m.text = List.replicate 2000 'a' := by
  have hclean : cleanText (List.replicate 2001 'a') =
      List.replicate 2000 'a' := by
    rw [cleanText_replicate_a]
    norm_num
  have htext : cleanText (List.replicate 2001 'a') ≠ [] := by
    rw [hclean]
    simp
  rcases sendMessage_messages_none ⟨10, "Student"⟩
      { threadId := 1, text := List.replicate 2001 'a' } wAnonStore 5 rfl with
    ⟨e, herr, _⟩ | ⟨cl, hok, hmsg⟩
  · exfalso
    obtain ⟨ok, hok⟩ := sendMessage_student_assigned_ok ⟨10, "Student"⟩
      { threadId := 1, text := List.replicate 2001 'a' } wAnonStore 5
      (t := wAnonThread) (by rfl) htext (by rfl) (by rfl) (by rfl) (by rfl)
    rw [hok] at herr
    exact absurd herr (by simp)
  · constructor
    · rw [hok]
      rfl
    · refine ⟨_, hmsg, ?_⟩
      show cleanText (List.replicate 2001 'a') = _
      exact hclean

/-- Witness for C10 (amended): the empty-after-trim rejection at a concrete
input, and the truncation bound at a concrete string. -/
theorem sendMessage_text_validation_witness :
    cleanText [' ', '\t'] = [] ∧
    sendMessage ⟨10, "Student"⟩ { threadId := 1, text := [' ', '\t'] }
      wAnonStore 5 = (.error .validationErr, wAnonStore) ∧
    (cleanText (List.replicate 2001 'a')).length ≤ 2000 :=
  ⟨by decide,
   sendMessage_text_validation.1 ⟨10, "Student"⟩
     { threadId := 1, text := [' ', '\t'] } wAnonStore 5 (by decide),
   sendMessage_text_validation.2.1 (List.replicate 2001 'a')⟩

theorem sendMessage_counselor_claim_ok (viewer : Viewer) (req : SendReq)
    (σ : St) (now : Nat) {t : Thread}
    (ht : findThread σ req.threadId = some t)
    (htext : cleanText req.text ≠ []) (hopen : t.status = Status.open')
    (hc : isCounselor viewer = true) (hunclaimed : t.counselorId = none) :
    ∃ ok, (sendMessage viewer req σ now).1 = .ok ok ∧ ok.claimedNow = true ∧
      ∃ t', findThread (sendMessage viewer req σ now).2 req.threadId =
          some t' ∧
        t'.counselorId = some viewer.id ∧ t'.status = Status.open' := by
  have hcp : claimPhase viewer t req.threadId σ now =
      .ok (updThread σ { t with
        counselorId := some viewer.id, claimedAt := some now,
        unassignedUnread := 0,
        participants := addToSet t.participants viewer.id }, { t with
        counselorId := some viewer.id, claimedAt := some now,
        unassignedUnread := 0,
        participants := addToSet t.participants viewer.id }, true) := by
    simp only [claimPhase]
    rw [if_pos hc, hunclaimed]
    dsimp only
    rw [ht]
    dsimp only
    rw [if_pos ⟨hunclaimed, hopen⟩]
  simp only [sendMessage]
  rw [if_neg htext, ht]
  dsimp only
  simp only [sendMessageWith]
  rw [if_neg htext]
  rw [if_neg (by rw [hopen]; decide)]
  rw [if_neg (fun h => h.1 hc)]
  rw [lockPhase_counselor hc]
  dsimp only
  simp only [Bool.false_eq_true, if_false]
  rw [hcp]
  dsimp only
  refine ⟨_, rfl, rfl, ?_⟩
  have hcur : findThread (updThread σ ({ t with
      counselorId := some viewer.id, claimedAt := some now,
      unassignedUnread := 0,
      participants := addToSet t.participants viewer.id })) req.threadId =
      some ({ t with
        counselorId := some viewer.id, claimedAt := some now,
        unassignedUnread := 0,
        participants := addToSet t.participants viewer.id }) :=
    findThread_updThread_self ht _ (by exact findThread_tid (t := t) ht)
  obtain ⟨ca, hfind⟩ := finishSend_find_tid hcur
  refine ⟨_, hfind, ?_, ?_⟩
  · exact (counterUpd_fields _ _ _ _ _).2.2.1.trans rfl
  · exact (counterUpd_fields _ _ _ _ _).2.2.2.1.trans hopen

/-- Claim C2: on an unclaimed open thread, when counselor A's send executes
its conditional claim first, A's send succeeds with `claimedNow = true` and
persists exactly one new message, while counselor B's send fails — with
Conflict when B raced from the stale unclaimed snapshot, or Forbidden when B
reads the thread after A's claim — and B's failed send leaves the store
unchanged and persists no message. -/
theorem claim_race (σ0 : St) (t : Thread) (a b : Viewer)
    (reqA reqB : SendReq) (now1 now2 : Nat)
    (ht : findThread σ0 reqA.threadId = some t)
    (htid : reqB.threadId = reqA.threadId)
    (hunclaimed : t.counselorId = none) (hopen : t.status = Status.open')
    (ha : isCounselor a = true) (hb : isCounselor b = true)
    (hab : a.id ≠ b.id)
    (htextA : cleanText reqA.text ≠ []) (htextB : cleanText reqB.text ≠ [])
    (hcidA : reqA.clientId = none) :
    ∃ okA, (sendMessage a reqA σ0 now1).1 = .ok okA ∧
      okA.claimedNow = true ∧
      (sendMessage a reqA σ0 now1).2.messages = σ0.messages ++
        [newMessage a reqA.threadId none (cleanText reqA.text) σ0 now1] ∧
      sendMessageWith b reqB t (sendMessage a reqA σ0 now1).2 now2 =
        (.error .conflict, (sendMessage a reqA σ0 now1).2) ∧
      sendMessage b reqB (sendMessage a reqA σ0 now1).2 now2 =
        (.error .forbidden, (sendMessage a reqA σ0 now1).2) := by
  obtain ⟨okA, hokA, hclA, T1, hfindT1, hT1c, hT1s⟩ :=
    sendMessage_counselor_claim_ok a reqA σ0 now1 ht htextA hopen ha hunclaimed
  have hmsgs : (sendMessage a reqA σ0 now1).2.messages = σ0.messages ++
      [newMessage a reqA.threadId none (cleanText reqA.text) σ0 now1] := by
    rcases sendMessage_messages_none a reqA σ0 now1 hcidA with
      ⟨e, herr, _⟩ | ⟨cl, _, hm⟩
    · rw [hokA] at herr
      exact absurd herr (by simp)
    · exact hm
  have hfindB : findThread (sendMessage a reqA σ0 now1).2 reqB.threadId =
      some T1 := by
    rw [htid]
    exact hfindT1
  have hstale : sendMessageWith b reqB t (sendMessage a reqA σ0 now1).2 now2 =
      (.error .conflict, (sendMessage a reqA σ0 now1).2) := by
    have hcpB : claimPhase b t reqB.threadId
        (sendMessage a reqA σ0 now1).2 now2 = .error .conflict := by
      simp only [claimPhase]
      rw [if_pos hb, hunclaimed]
      dsimp only
      rw [hfindB]
      dsimp only
      rw [if_neg (fun h => by rw [hT1c] at h; exact absurd h.1 (by simp))]
    simp only [sendMessageWith]
    rw [if_neg htextB]
    rw [if_neg (by rw [hopen]; decide)]
    rw [if_neg (fun h => h.1 hb)]
    rw [lockPhase_counselor hb]
    dsimp only
    simp only [Bool.false_eq_true, if_false]
    rw [hcpB]
  have hfresh0 : ∀ σ1 : St, findThread σ1 reqB.threadId = some T1 →
      sendMessage b reqB σ1 now2 = (.error .forbidden, σ1) := by
    intro σ1 hf1
    have hcpB2 : claimPhase b T1 reqB.threadId σ1 now2 =
        .error .forbidden := by
      simp only [claimPhase]
      rw [if_pos hb, hT1c]
      dsimp only
      rw [if_neg (fun h => hab h)]
    simp only [sendMessage]
    rw [if_neg htextB, hf1]
    dsimp only
    simp only [sendMessageWith]
    rw [if_neg htextB]
    rw [if_neg (by rw [hT1s]; decide)]
    rw [if_neg (fun h => h.1 hb)]
    rw [lockPhase_counselor hb]
    dsimp only
    simp only [Bool.false_eq_true, if_false]
    rw [hcpB2]
  exact ⟨okA, hokA, hclA, hmsgs, hstale, hfresh0 _ hfindB⟩

theorem claim_race_witness :
    ∃ okA,
      (sendMessage ⟨20, "Counselor"⟩ { threadId := 1, text := ['h', 'i'] }
        wAnonStore 5).1 = .ok okA ∧
      okA.claimedNow = true ∧
      (sendMessage ⟨20, "Counselor"⟩ { threadId := 1, text := ['h', 'i'] }
        wAnonStore 5).2.messages = wAnonStore.messages ++
        [newMessage ⟨20, "Counselor"⟩ 1 none ['h', 'i'] wAnonStore 5] ∧
      sendMessageWith ⟨30, "Counselor"⟩ { threadId := 1, text := ['y', 'o'] }
        wAnonThread (sendMessage ⟨20, "Counselor"⟩
          { threadId := 1, text := ['h', 'i'] } wAnonStore 5).2 6 =
        (.error .conflict, (sendMessage ⟨20, "Counselor"⟩
          { threadId := 1, text := ['h', 'i'] } wAnonStore 5).2) ∧
      sendMessage ⟨30, "Counselor"⟩ { threadId := 1, text := ['y', 'o'] }
        (sendMessage ⟨20, "Counselor"⟩ { threadId := 1, text := ['h', 'i'] }
          wAnonStore 5).2 6 =
        (.error .forbidden, (sendMessage ⟨20, "Counselor"⟩
          { threadId := 1, text := ['h', 'i'] } wAnonStore 5).2) :=
  claim_race wAnonStore wAnonThread ⟨20, "Counselor"⟩ ⟨30, "Counselor"⟩
    { threadId := 1, text := ['h', 'i'] } { threadId := 1, text := ['y', 'o'] }
    5 6 (by decide) rfl (by decide) rfl (by decide) (by decide) (by decide)
    (by decide) (by decide) rfl

theorem find?_append_none {α : Type} {l₁ : List α} (l₂ : List α)
    {p : α → Bool} (h : l₁.find? p = none) :
    (l₁ ++ l₂).find? p = l₂.find? p := by
  induction l₁ with
  | nil => rfl
  | cons b l ih =>
    by_cases hb : p b = true
    · rw [List.find?_cons_of_pos _ hb] at h
      exact absurd h (by simp)
    · rw [List.find?_cons_of_neg _ hb] at h
      rw [List.cons_append, List.find?_cons_of_neg _ hb]
      exact ih h

theorem sendMessage_ok_messages_fresh (viewer : Viewer) (req : SendReq)
    (σ : St) (now : Nat)
    (hfresh : findDup σ req.threadId viewer.id req.clientId = none) :
    (∃ e, (sendMessage viewer req σ now).1 = .error e ∧
      (sendMessage viewer req σ now).2.messages = σ.messages) ∨
    (∃ cl, (sendMessage viewer req σ now).1 =
        .ok ⟨newMessage viewer req.threadId req.clientId
          (cleanText req.text) σ now, cl⟩ ∧
      (sendMessage viewer req σ now).2.messages = σ.messages ++
        [newMessage viewer req.threadId req.clientId
          (cleanText req.text) σ now]) := by
  simp only [sendMessage]
  by_cases htext : cleanText req.text = []
  · rw [if_pos htext]
    exact .inl ⟨_, rfl, rfl⟩
  rw [if_neg htext]
  rcases hsnap : findThread σ req.threadId with _ | snap
  · exact .inl ⟨_, rfl, rfl⟩
  dsimp only
  simp only [sendMessageWith]
  rw [if_neg htext]
  by_cases hclosed : snap.status = Status.closed
  · rw [if_pos hclosed]
    exact .inl ⟨_, rfl, rfl⟩
  rw [if_neg hclosed]
  by_cases hacc : ¬ isCounselor viewer = true ∧ snap.studentId ≠ viewer.id
  · rw [if_pos hacc]
    exact .inl ⟨_, rfl, rfl⟩
  rw [if_neg hacc]
  rcases hlp : lockPhase viewer req.senderMode snap now with e | ⟨doc, didSave⟩
  · exact .inl ⟨_, rfl, rfl⟩
  dsimp only
  rcases hcp : claimPhase viewer doc req.threadId
      (if didSave = true then updThread σ doc else σ) now with e | ⟨σ2, th, cl⟩
  · dsimp only
    cases didSave
    · exact .inl ⟨_, rfl, rfl⟩
    · exact .inl ⟨_, rfl, rfl⟩
  dsimp only
  have hm2 : σ2.messages = σ.messages ∧ σ2.nextMid = σ.nextMid := by
    rcases claimPhase_cases hcp with ⟨_, hσ2, _, _⟩ |
      ⟨_, _, _, _, hrest⟩ | ⟨_, _, _, cur, _, _, _, _, hσ2⟩
    · subst hσ2
      cases didSave
      · exact ⟨rfl, rfl⟩
      · exact ⟨rfl, rfl⟩
    · rcases hrest with ⟨cur, _, hσ2⟩ | ⟨_, hσ2⟩ <;>
        (subst hσ2; cases didSave)
      · exact ⟨rfl, rfl⟩
      · exact ⟨rfl, rfl⟩
      · exact ⟨rfl, rfl⟩
      · exact ⟨rfl, rfl⟩
    · subst hσ2
      cases didSave
      · exact ⟨rfl, rfl⟩
      · exact ⟨rfl, rfl⟩
  have hnm : newMessage viewer req.threadId req.clientId
      (cleanText req.text) σ2 now =
      newMessage viewer req.threadId req.clientId
        (cleanText req.text) σ now := by
    simp only [newMessage, hm2.2]
  have hdup : findDup σ2 req.threadId viewer.id req.clientId = none := by
    rcases hc : req.clientId with _ | cid
    · rfl
    · rw [hc] at hfresh
      unfold findDup at hfresh ⊢
      dsimp only at hfresh ⊢
      rw [hm2.1]
      exact hfresh
  rw [finishSend_of_new hdup]
  rcases hfind2 : findThread σ2 req.threadId with _ | cur2
  · dsimp only
    right
    refine ⟨cl, by rw [hnm], ?_⟩
    show σ2.messages ++ [newMessage viewer req.threadId req.clientId
      (cleanText req.text) σ2 now] = _
    rw [hm2.1, hnm]
  · dsimp only
    right
    refine ⟨cl, by rw [hnm], ?_⟩
    show σ2.messages ++ [newMessage viewer req.threadId req.clientId
      (cleanText req.text) σ2 now] = _
    rw [hm2.1, hnm]

theorem sendMessage_dup_ok (viewer : Viewer) (req : SendReq) (σ : St)
    (now : Nat) {T1 : Thread} {m : Message}
    (ht : findThread σ req.threadId = some T1)
    (htext : cleanText req.text ≠ [])
    (hopen : T1.status = Status.open')
    (hstu : isCounselor viewer = false → T1.studentId = viewer.id)
    (hcoun : isCounselor viewer = true → T1.counselorId = some viewer.id)
    (hlock : isCounselor viewer = false → T1.identityLocked = true)
    (hnoconf : isCounselor viewer = false →
      ¬ (jsLower (req.senderMode.getD "") ≠ "" ∧
         T1.anonymous ≠ (jsLower (req.senderMode.getD "") == "anonymous")))
    (hdup : findDup σ req.threadId viewer.id req.clientId = some m) :
    ∃ cl σ2, sendMessage viewer req σ now = (.ok ⟨m, cl⟩, σ2) ∧
      σ2.messages = σ.messages := by
  have hlp : lockPhase viewer req.senderMode T1 now = .ok (T1, false) := by
    cases hc : isCounselor viewer with
    | true => exact lockPhase_counselor hc req.senderMode T1 now
    | false =>
      simp only [lockPhase, hc, Bool.false_eq_true, if_false]
      rw [if_pos (hlock hc), if_neg (hnoconf hc)]
  have hcp : ∃ σ1, claimPhase viewer T1 req.threadId σ now =
      .ok (σ1, T1, false) ∧ σ1.messages = σ.messages := by
    cases hc : isCounselor viewer with
    | false => exact ⟨σ, claimPhase_student hc T1 req.threadId σ now, rfl⟩
    | true =>
      refine ⟨updThread σ { T1 with
        participants := addToSet T1.participants viewer.id }, ?_, rfl⟩
      unfold claimPhase
      rw [if_pos hc, hcoun hc]
      dsimp only
      rw [if_pos rfl, ht]
      dsimp only
      rw [hcoun hc]
  obtain ⟨σ1, hcpe, hσ1m⟩ := hcp
  have hdup1 : findDup σ1 req.threadId viewer.id req.clientId = some m := by
    rcases hc2 : req.clientId with _ | cid
    · rw [hc2] at hdup
      exact absurd hdup (by simp [findDup])
    · rw [hc2] at hdup
      unfold findDup at hdup ⊢
      dsimp only at hdup ⊢
      rw [hσ1m]
      exact hdup
  have haccess : ¬ (¬ isCounselor viewer = true ∧
      T1.studentId ≠ viewer.id) := by
    rintro ⟨h1', h2'⟩
    cases hc : isCounselor viewer
    · exact h2' (hstu hc)
    · exact h1' hc
  simp only [sendMessage]
  rw [if_neg htext, ht]
  dsimp only
  simp only [sendMessageWith]
  rw [if_neg htext]
  rw [if_neg (by rw [hopen]; decide)]
  rw [if_neg haccess]
  rw [hlp]
  dsimp only
  simp only [Bool.false_eq_true, if_false]
  rw [hcpe]
  dsimp only
  rw [finishSend_of_dup hdup1]
  rcases hf1 : findThread σ1 req.threadId with _ | cur
  · dsimp only
    exact ⟨false, σ1, rfl, hσ1m⟩
  · dsimp only
    exact ⟨false, updThread σ1
      (counterUpd viewer T1 (cleanText req.text) m.createdAt cur), rfl, hσ1m⟩

theorem sendMessage_ok_round2 {viewer : Viewer} {req : SendReq} {σ σ' : St}
    {now : Nat} {ok : SendOk}
    (h : sendMessage viewer req σ now = (.ok ok, σ')) :
    cleanText req.text ≠ [] ∧
    ∃ T1, findThread σ' req.threadId = some T1 ∧
      T1.status = Status.open' ∧
      (isCounselor viewer = false → T1.studentId = viewer.id) ∧
      (isCounselor viewer = true → T1.counselorId = some viewer.id) ∧
      (isCounselor viewer = false → T1.identityLocked = true) ∧
      (isCounselor viewer = false →
        ¬ (jsLower (req.senderMode.getD "") ≠ "" ∧
           T1.anonymous ≠ (jsLower (req.senderMode.getD "") == "anonymous"))) := by
  unfold sendMessage at h
  by_cases htext : cleanText req.text = []
  · rw [if_pos htext] at h
    exact absurd h (by simp)
  rw [if_neg htext] at h
  refine ⟨htext, ?_⟩
  rcases hsnap : findThread σ req.threadId with _ | snap
  · rw [hsnap] at h
    exact absurd h (by simp)
  rw [hsnap] at h
  dsimp only at h
  simp only [sendMessageWith] at h
  rw [if_neg htext] at h
  by_cases hclosed : snap.status = Status.closed
  · rw [if_pos hclosed] at h
    exact absurd h (by simp)
  rw [if_neg hclosed] at h
  have hsopen : snap.status = Status.open' := by
    rcases hst : snap.status
    · rfl
    · exact absurd hst hclosed
  by_cases hacc : ¬ isCounselor viewer = true ∧ snap.studentId ≠ viewer.id
  · rw [if_pos hacc] at h
    exact absurd h (by simp)
  rw [if_neg hacc] at h
  have haccess : isCounselor viewer = false → snap.studentId = viewer.id := by
    intro hc
    by_contra hne
    exact hacc ⟨by rw [hc]; exact Bool.false_ne_true, hne⟩
  rcases hlp : lockPhase viewer req.senderMode snap now with e | ⟨doc, didSave⟩
  · rw [hlp] at h
    exact absurd h (by simp)
  rw [hlp] at h
  dsimp only at h
  rcases hcp : claimPhase viewer doc req.threadId
      (if didSave = true then updThread σ doc else σ) now with e | ⟨σ2, th, cl⟩
  · rw [hcp] at h
    dsimp only at h
    cases didSave
    · exact absurd h (by simp)
    · exact absurd h (by simp)
  rw [hcp] at h
  dsimp only at h
  have hσ' : (finishSend viewer req.threadId req.clientId (cleanText req.text)
      th σ2 now cl).2 = σ' := congrArg Prod.snd h
  have hCUR : ∃ CUR2, findThread σ2 req.threadId = some CUR2 ∧
      CUR2.status = Status.open' ∧
      (isCounselor viewer = false → CUR2.studentId = viewer.id) ∧
      (isCounselor viewer = true → CUR2.counselorId = some viewer.id) ∧
      (isCounselor viewer = false → CUR2.identityLocked = true) ∧
      (isCounselor viewer = false →
        ¬ (jsLower (req.senderMode.getD "") ≠ "" ∧
           CUR2.anonymous ≠
             (jsLower (req.senderMode.getD "") == "anonymous"))) := by
    rcases claimPhase_cases hcp with ⟨hc, hσ2, _, _⟩ |
      ⟨hc, hdocc, _, _, hrest⟩ |
      ⟨hc, hdocc, hcl, cur, hcur, hcurc, hcurs, hth, hσ2⟩
    · subst hσ2
      simp only [lockPhase, hc, Bool.false_eq_true, if_false] at hlp
      by_cases hl : snap.identityLocked = true
      · rw [if_pos hl] at hlp
        by_cases hg : jsLower (req.senderMode.getD "") ≠ "" ∧
            snap.anonymous ≠ (jsLower (req.senderMode.getD "") == "anonymous")
        · rw [if_pos hg] at hlp
          exact absurd hlp (by simp)
        · rw [if_neg hg] at hlp
          simp only [Except.ok.injEq, Prod.mk.injEq] at hlp
          refine ⟨snap, ?_, hsopen, fun _ => haccess hc,
            (fun hcc => absurd hcc (by rw [hc]; exact Bool.false_ne_true)),
            fun _ => hl, fun _ => hg⟩
          rw [← hlp.2]
          simp only [Bool.false_eq_true, if_false]
          exact hsnap
      · rw [if_neg hl] at hlp
        simp only [Except.ok.injEq, Prod.mk.injEq] at hlp
        have hdoc := hlp.1.symm
        refine ⟨doc, ?_, ?_, ?_,
          (fun hcc => absurd hcc (by rw [hc]; exact Bool.false_ne_true)),
          ?_, ?_⟩
        · rw [← hlp.2]
          rw [if_pos rfl]
          exact findThread_updThread_self hsnap doc
            (by rw [hdoc, preSave_tid]; exact findThread_tid (t := snap) hsnap)
        · rw [hdoc]
          exact ((preSave_fields _).2.2.2.2.2.2.2.2.1).trans hsopen
        · intro _
          rw [hdoc]
          exact ((preSave_fields _).2.1).trans (haccess hc)
        · intro _
          rw [hdoc]
          exact ((preSave_fields _).2.2.2.2.2.2.1).trans rfl
        · intro _
          rintro ⟨_, hne⟩
          apply hne
          rw [hdoc]
          exact ((preSave_fields _).2.2.2.2.1).trans rfl
    · rcases lockPhase_cases hlp with ⟨hdoc, hsave⟩ | ⟨hstu, _⟩
      · simp only [hsave, Bool.false_eq_true, if_false] at hrest
        rcases hrest with ⟨cur, hcur, hσ2⟩ | ⟨hnone, _⟩
        · have hcs : snap = cur := Option.some.inj (hsnap.symm.trans hcur)
          subst hσ2
          refine ⟨{ cur with
              participants := addToSet cur.participants viewer.id },
            findThread_updThread_self hcur _ (findThread_tid (t := cur) hcur),
            ?_, (fun hcc => absurd hcc (by rw [hc]; simp)), ?_,
            (fun hcc => absurd hcc (by rw [hc]; simp)),
            (fun hcc => absurd hcc (by rw [hc]; simp))⟩
          · show cur.status = Status.open'
            rw [← hcs]
            exact hsopen
          · intro _
            show cur.counselorId = some viewer.id
            rw [← hcs]
            rw [← hdoc]
            exact hdocc
        · rw [hsnap] at hnone
          exact absurd hnone (by simp)
      · rw [hc] at hstu
        exact absurd hstu (by simp)
    · rcases lockPhase_cases hlp with ⟨hdoc, hsave⟩ | ⟨hstu, _⟩
      · simp only [hsave, Bool.false_eq_true, if_false] at hcur hσ2
        subst hσ2
        subst hth
        refine ⟨_,
          findThread_updThread_self hcur _ (findThread_tid (t := cur) hcur),
          hcurs, (fun hcc => absurd hcc (by rw [hc]; simp)),
          (fun _ => rfl),
          (fun hcc => absurd hcc (by rw [hc]; simp)),
          (fun hcc => absurd hcc (by rw [hc]; simp))⟩
      · rw [hc] at hstu
        exact absurd hstu (by simp)
  obtain ⟨CUR2, hf2, hst2, hstu2, hcoun2, hlock2, hnc2⟩ := hCUR
  obtain ⟨ca, hT1⟩ := @finishSend_find_tid viewer req.threadId req.clientId
    (cleanText req.text) th σ2 now cl CUR2 hf2
  refine ⟨counterUpd viewer th (cleanText req.text) ca CUR2, ?_, ?_, ?_, ?_,
    ?_, ?_⟩
  · rw [← hσ']
    exact hT1
  · exact ((counterUpd_fields _ _ _ _ _).2.2.2.1).trans hst2
  · intro hc
    exact ((counterUpd_fields _ _ _ _ _).2.1).trans (hstu2 hc)
  · intro hc
    exact ((counterUpd_fields _ _ _ _ _).2.2.1).trans (hcoun2 hc)
  · intro hc
    exact ((counterUpd_fields _ _ _ _ _).2.2.2.2.2.1).trans (hlock2 hc)
  · intro hc
    rintro ⟨hrm, hne⟩
    refine hnc2 hc ⟨hrm, ?_⟩
    rwa [(counterUpd_fields _ _ _ _ _).2.2.2.2.1] at hne

/-- Claim C7: with a `clientId` supplied and no prior message for the
`(threadId, senderId, clientId)` triple, retrying the same send after a
success persists no second message: the unique sparse index answers the
duplicate create with the already-stored message, so both calls return the
same stored message and exactly one message with that triple is stored. -/
theorem clientId_idempotent (viewer : Viewer) (req : SendReq)
    (σ0 σ1 : St) (now1 now2 : Nat) (ok1 : SendOk) (cid : String)
    (hcid : req.clientId = some cid)
    (hfresh : ∀ m ∈ σ0.messages,
      (m.threadId == req.threadId && m.senderId == viewer.id &&
        m.clientId == some cid) = false)
    (h1 : sendMessage viewer req σ0 now1 = (.ok ok1, σ1)) :
    ∃ cl2 σ2, sendMessage viewer req σ1 now2 =
        (.ok ⟨ok1.message, cl2⟩, σ2) ∧
      σ2.messages = σ1.messages ∧
      (σ2.messages.filter (fun m =>
        m.threadId == req.threadId && m.senderId == viewer.id &&
        m.clientId == some cid)).length = 1 := by
  have hfd0 : findDup σ0 req.threadId viewer.id req.clientId = none := by
    rw [hcid]
    unfold findDup
    dsimp only
    refine List.find?_eq_none.mpr ?_
    intro m hm
    simp [hfresh m hm]
  rcases sendMessage_ok_messages_fresh viewer req σ0 now1 hfd0 with
    ⟨e, herr, _⟩ | ⟨cl, hok, hmsg⟩
  · rw [h1] at herr
    exact absurd herr (by simp)
  rw [h1] at hok hmsg
  dsimp only at hok hmsg
  have hok1 : ok1 = ⟨newMessage viewer req.threadId req.clientId
      (cleanText req.text) σ0 now1, cl⟩ := Except.ok.inj hok
  obtain ⟨htext, T1, hfT1, hT1s, hT1stu, hT1c, hT1l, hT1nc⟩ :=
    sendMessage_ok_round2 h1
  rw [hcid] at hok1 hmsg
  have hp : (fun m => m.threadId == req.threadId &&
      m.senderId == viewer.id && m.clientId == some cid)
      (newMessage viewer req.threadId (some cid)
        (cleanText req.text) σ0 now1) = true := by
    simp [newMessage]
  have hdup1 : findDup σ1 req.threadId viewer.id req.clientId =
      some (newMessage viewer req.threadId (some cid)
        (cleanText req.text) σ0 now1) := by
    unfold findDup
    rw [hcid]
    dsimp only
    rw [hmsg]
    rw [find?_append_none _ (List.find?_eq_none.mpr
      (fun m hm => by simp [hfresh m hm]))]
    exact List.find?_cons_of_pos
      (p := fun m : Message => m.threadId == req.threadId &&
        m.senderId == viewer.id && m.clientId == some cid) _ hp
  obtain ⟨cl2, σ2, hsend2, hm2⟩ := sendMessage_dup_ok viewer req σ1 now2
    hfT1 htext hT1s hT1stu hT1c hT1l hT1nc hdup1
  refine ⟨cl2, σ2, ?_, hm2, ?_⟩
  · rw [hok1]
    exact hsend2
  · rw [hm2, hmsg, List.filter_append]
    rw [List.filter_eq_nil_iff.mpr (fun m hm => by simp [hfresh m hm])]
    rw [List.filter_cons_of_pos
      (p := fun m : Message => m.threadId == req.threadId &&
        m.senderId == viewer.id && m.clientId == some cid) hp]
    rfl

theorem clientId_idempotent_witness :
    ∃ cl2 σ2,
      sendMessage ⟨10, "Student"⟩
        { threadId := 1, text := ['h', 'i'], clientId := some "c" }
        (sendMessage ⟨10, "Student"⟩
          { threadId := 1, text := ['h', 'i'], clientId := some "c" }
          wAnonStore 5).2 6 =
        (.ok ⟨newMessage ⟨10, "Student"⟩ 1 (some "c") ['h', 'i']
          wAnonStore 5, cl2⟩, σ2) ∧
      σ2.messages = (sendMessage ⟨10, "Student"⟩
        { threadId := 1, text := ['h', 'i'], clientId := some "c" }
        wAnonStore 5).2.messages ∧
      (σ2.messages.filter (fun m => m.threadId == 1 && m.senderId == 10 &&
        m.clientId == some "c")).length = 1 :=
  clientId_idempotent ⟨10, "Student"⟩
    { threadId := 1, text := ['h', 'i'], clientId := some "c" }
    wAnonStore
    (sendMessage ⟨10, "Student"⟩
      { threadId := 1, text := ['h', 'i'], clientId := some "c" }
      wAnonStore 5).2 5 6
    ⟨newMessage ⟨10, "Student"⟩ 1 (some "c") ['h', 'i'] wAnonStore 5, false⟩
    "c" rfl (fun m hm => absurd hm (List.not_mem_nil m)) (by rfl)

end CheckIn
